import Mathlib

/-!
Verification development for the agentic-powered-golden-path-demo repository.

The repository contains two variants of the same onboarding agent:
 * `src/agent.py` (class `OnboardingAgent`), called the "src" variant below;
 * `ai-onboarding-agent/agent.py` (free functions), called the "ai" variant below.

Strings are modelled as `List Char`; Python `str.lower()` is modelled as ASCII
lowercasing (all inputs of interest are ASCII).  External collaborators (the
LLM API, the GitHub API, git/kubectl subprocesses, the Jinja2 renderer, the
filesystem walk) are modelled as environment records whose fields give the
outcome of each external call; everything the Python code itself computes is
embedded as executable Lean functions.
-/

abbrev Str := List Char

/-- ASCII lowercasing of one character, the behaviour of Python `str.lower()`
on the ASCII range. -/
def lowerChar (c : Char) : Char :=
  if 'A' ≤ c && c ≤ 'Z' then Char.ofNat (c.toNat + 32) else c

/-- Model of Python `str.lower()`. -/
def lowerStr (s : Str) : Str := s.map lowerChar

def isLowerAlpha (c : Char) : Bool := 'a' ≤ c && c ≤ 'z'

def isUpperAlpha (c : Char) : Bool := 'A' ≤ c && c ≤ 'Z'

def isDigitCh (c : Char) : Bool := '0' ≤ c && c ≤ '9'

/-- The character class `[a-zA-Z0-9\-_]` used by the src variant's fallback
name patterns. -/
def isClassSrc (c : Char) : Bool :=
  isLowerAlpha c || isUpperAlpha c || isDigitCh c || c == '-' || c == '_'

/-- The character class `[a-zA-Z0-9-]` used by the ai variant's name patterns
(no underscore). -/
def isClassAi (c : Char) : Bool :=
  isLowerAlpha c || isUpperAlpha c || isDigitCh c || c == '-'

/-- Python regex `\s` on the ASCII range (space, tab, LF, VT, FF, CR, written
via their code points). -/
def isSpaceCh (c : Char) : Bool :=
  c.toNat == 32 || c.toNat == 9 || c.toNat == 10 || c.toNat == 11 || c.toNat == 12
    || c.toNat == 13

/-- The single-quote character. -/
def squote : Char := Char.ofNat 39

/-- The regex class `["\']` used around captured names in the src variant. -/
def isQuoteCh (c : Char) : Bool := c == '"' || c == squote

/-- Substring test: does `lit` occur contiguously inside the second string?
Mirrors the search phase of `re.search` for a literal pattern. -/
def isSubstr (lit : Str) : Str → Bool
  | [] => lit.isEmpty
  | c :: rest => lit.isPrefixOf (c :: rest) || isSubstr lit rest

/-- The captured group `([cls]+)`: a non-empty maximal run of class
characters. -/
def captureTok (cls : Char → Bool) (s2 : Str) : Option Str :=
  if (s2.takeWhile cls).isEmpty then none else some (s2.takeWhile cls)

/-- The optional quote `["\']?` before a captured group. -/
def afterQuoteOpt (allowQuote : Bool) (s1 : Str) : Str :=
  if allowQuote then
    match s1 with
    | q :: r => if isQuoteCh q then r else q :: r
    | [] => []
  else s1

/-- After a pattern's literal keyword: `\s+["\']?([cls]+)` — one or more
whitespace characters, an optional quote (only when `allowQuote` is set, as in
the src variant's patterns), then the captured non-empty run of class
characters.  Greedy maximal munching agrees with Python backtracking here
because the whitespace, quote and token classes are pairwise disjoint. -/
def matchAfterLit (allowQuote : Bool) (cls : Char → Bool) : Str → Option Str
  | [] => none
  | c :: rest =>
    if isSpaceCh c then
      captureTok cls (afterQuoteOpt allowQuote (rest.dropWhile isSpaceCh))
    else none

/-- Anchored match of a pattern `lit\s+["\']?([cls]+)["\']?` at the start of
the given string (the trailing optional quote constrains nothing). -/
def matchKW (lit : Str) (allowQuote : Bool) (cls : Char → Bool) (s : Str) : Option Str :=
  if lit.isPrefixOf s then matchAfterLit allowQuote cls (s.drop lit.length) else none

/-- Anchored match of the src variant's third pattern
`["\']([a-zA-Z0-9\-_]+)["\']`: a quote, a non-empty class run, a quote. -/
def matchQuoted (cls : Char → Bool) : Str → Option Str
  | [] => none
  | q :: rest =>
    if isQuoteCh q then
      if (rest.takeWhile cls).isEmpty then none
      else
        match rest.drop (rest.takeWhile cls).length with
        | q2 :: _ => if isQuoteCh q2 then some (rest.takeWhile cls) else none
        | [] => none
    else none

/-- Anchored match of the ai variant's patterns `([cls]+)\s+lit`: a non-empty
class run, whitespace, then the literal keyword. -/
def matchTokThen (cls : Char → Bool) (lit : Str) (s : Str) : Option Str :=
  if (s.takeWhile cls).isEmpty then none
  else
    match s.drop (s.takeWhile cls).length with
    | c :: rest =>
      if isSpaceCh c then
        if lit.isPrefixOf (rest.dropWhile isSpaceCh) then some (s.takeWhile cls) else none
      else none
    | [] => none

/-- `re.search` semantics for an anchored matcher: try each start position
from the left, first success wins. -/
def searchFrom (m : Str → Option Str) : Str → Option Str
  | [] => none
  | c :: rest =>
    match m (c :: rest) with
    | some t => some t
    | none => searchFrom m rest

/-- Ordered pattern list, first pattern with a match anywhere wins — the
`for pattern in patterns: re.search(...)` loops of both variants. -/
def firstMatch : List (Str → Option Str) → Str → Option Str
  | [], _ => none
  | p :: ps, s =>
    match p s with
    | some t => some t
    | none => firstMatch ps s

/-- The dataclass `AppInfo` of the src variant. -/
structure AppInfo where
  name : Str
  description : Str
  language : Str
  author : Str
  repository_url : Str := []
deriving DecidableEq, Repr

/-- The ordered pattern list of `OnboardingAgent._fallback_extraction`:
`called\s+["\']?([a-zA-Z0-9\-_]+)["\']?`, `named\s+...`, then
`["\']([a-zA-Z0-9\-_]+)["\']`. -/
def namePatterns : List (Str → Option Str) :=
  [ searchFrom (matchKW "called".data true isClassSrc)
  , searchFrom (matchKW "named".data true isClassSrc)
  , searchFrom (matchQuoted isClassSrc) ]

/-- `OnboardingAgent._fallback_extraction`: pattern match over the lowercased
request, default name `"new-app"`, description a truncated echo of the
request, fixed language and author. -/
def fallbackExtraction (request : Str) : AppInfo :=
  let request_lower := lowerStr request
  let app_name := (firstMatch namePatterns request_lower).getD "new-app".data
  { name := app_name
    description := "Application created from request: ".data ++ request.take 100 ++ "...".data
    language := "NodeJS".data
    author := "AI Agent".data }

/-- The ai variant's fallback pattern list (searched with `re.IGNORECASE`,
modelled by searching the lowercased request; the captured group is then
lowercased, which is the identity on an already-lowercased string). -/
def aiPatterns : List (Str → Option Str) :=
  [ searchFrom (matchKW "called".data false isClassAi)
  , searchFrom (matchKW "named".data false isClassAi)
  , searchFrom (matchTokThen isClassAi "service".data)
  , searchFrom (matchTokThen isClassAi "app".data)
  , searchFrom (matchKW "deploy".data false isClassAi)
  , searchFrom (matchKW "create".data false isClassAi) ]

/-- The fallback half of the ai variant's `extract_app_name_from_request`:
ordered patterns, default `"my-app"`. -/
def aiFallbackName (request : Str) : Str :=
  (firstMatch aiPatterns (lowerStr request)).getD "my-app".data

/-- Outcome of the external LLM call: a network/API error (the Python
exception path) or the text content of the model's reply. -/
inductive LlmResult where
  | err
  | ok (response : Str)

/-- The class kept by the ai variant's cleanup `re.sub(r'[^a-z0-9-]', '', s)`. -/
def pySanitizeClass (c : Char) : Bool := isLowerAlpha c || isDigitCh c || c == '-'

/-- Model of `re.sub(r'-+', '-', s)`: collapse every run of hyphens to one. -/
def collapseHyphens : Str → Str
  | [] => []
  | [c] => [c]
  | c :: d :: rest =>
    if c == '-' && d == '-' then collapseHyphens (d :: rest)
    else c :: collapseHyphens (d :: rest)

/-- Model of Python `s.strip(x)` for a single character. -/
def stripCharEnds (x : Char) (s : Str) : Str :=
  ((s.dropWhile (· == x)).reverse.dropWhile (· == x)).reverse

/-- Model of Python `s.strip()` (ASCII whitespace). -/
def stripWsEnds (s : Str) : Str :=
  ((s.dropWhile isSpaceCh).reverse.dropWhile isSpaceCh).reverse

/-- The ai variant's `extract_app_name_from_request`: LLM reply lowered,
sanitized to `[a-z0-9-]`, hyphen runs collapsed, hyphens stripped from the
ends; if the result is empty (or the LLM call failed) fall through to the
pattern fallback. -/
def aiExtractName (llm : LlmResult) (request : Str) : Str :=
  match llm with
  | .err => aiFallbackName request
  | .ok content =>
    let app_name := lowerStr (stripWsEnds content)
    let app_name := app_name.filter pySanitizeClass
    let app_name := collapseHyphens app_name
    let app_name := stripCharEnds '-' app_name
    if app_name.isEmpty then aiFallbackName request else app_name

/-- JSON values, the possible results of `json.loads` in the src variant's
LLM path.  Floats, `\uXXXX` escapes and `NaN/Infinity` are not modelled (our
parser fails on them); no claim exercises those forms. -/
inductive Json where
  | null
  | bool (b : Bool)
  | num (n : Int)
  | str (s : Str)
  | arr (elems : List Json)
  | obj (fields : List (Str × Json))

/-- JSON insignificant whitespace (space, tab, LF, CR by code point). -/
def isJsonWs (c : Char) : Bool :=
  c.toNat == 32 || c.toNat == 9 || c.toNat == 10 || c.toNat == 13

def braceL : Char := Char.ofNat 123

def braceR : Char := Char.ofNat 125

/-- The two-character JSON string escapes as a lookup table (the `\uXXXX`
form is not modelled). -/
def escTable : List (Char × Char) :=
  [('"', '"'), ('\\', '\\'), ('/', '/'), ('n', '\n'), ('t', '\t'), ('r', '\r'),
   ('b', '\x08'), ('f', '\x0c')]

/-- Decode one JSON string escape character (without `\uXXXX`). -/
def unescape (c : Char) : Option Char :=
  (escTable.find? (fun pr => pr.1 == c)).map (fun pr => pr.2)

/-- Body of a JSON string after the opening quote: returns the decoded
characters and the remainder after the closing quote. -/
def parseStringBody : Str → Option (Str × Str)
  | [] => none
  | c :: rest =>
    if c == '"' then some ([], rest)
    else if c == '\\' then
      match rest with
      | [] => none
      | e :: rest2 =>
        match unescape e with
        | some ch =>
          match parseStringBody rest2 with
          | some (s, r) => some (ch :: s, r)
          | none => none
        | none => none
    else
      match parseStringBody rest with
      | some (s, r) => some (c :: s, r)
      | none => none

/-- Digit run to a natural number. -/
def digitsToNat (s : Str) : Nat := s.foldl (fun a c => a * 10 + (c.toNat - 48)) 0

/-- JSON integer literal (floats/exponents unmodelled: we fail where
`json.loads` would succeed, which only widens the fallback path and is not
exercised by any claim). -/
def parseNumber (s : Str) : Option (Json × Str) :=
  let sgn : Bool × Str :=
    match s with
    | c :: rest => if c == '-' then (true, rest) else (false, s)
    | [] => (false, s)
  let ds := sgn.2.takeWhile isDigitCh
  if ds.isEmpty then none
  else
    let rest := sgn.2.drop ds.length
    let n : Int := if sgn.1 then -(digitsToNat ds : Int) else (digitsToNat ds : Int)
    match rest with
    | c :: _ => if c == '.' || c == 'e' || c == 'E' then none else some (Json.num n, rest)
    | [] => some (Json.num n, [])

mutual

/-- Recursive-descent JSON value parser (fuel-indexed for termination). -/
def parseValue : Nat → Str → Option (Json × Str)
  | 0, _ => none
  | Nat.succ fuel, s0 =>
    let s := s0.dropWhile isJsonWs
    match s with
    | [] => none
    | c :: rest =>
      if c == '"' then
        match parseStringBody rest with
        | some (cs, r) => some (Json.str cs, r)
        | none => none
      else if c == braceL then
        let s2 := rest.dropWhile isJsonWs
        match s2 with
        | c2 :: r2 =>
          if c2 == braceR then some (Json.obj [], r2)
          else
            match parseMembers fuel rest with
            | some (fs, r) => some (Json.obj fs, r)
            | none => none
        | [] => none
      else if c == '[' then
        let s2 := rest.dropWhile isJsonWs
        match s2 with
        | c2 :: r2 =>
          if c2 == ']' then some (Json.arr [], r2)
          else
            match parseElems fuel rest with
            | some (vs, r) => some (Json.arr vs, r)
            | none => none
        | [] => none
      else if c == 't' then
        if "rue".data.isPrefixOf rest then some (Json.bool true, rest.drop 3) else none
      else if c == 'f' then
        if "alse".data.isPrefixOf rest then some (Json.bool false, rest.drop 4) else none
      else if c == 'n' then
        if "ull".data.isPrefixOf rest then some (Json.null, rest.drop 3) else none
      else parseNumber (c :: rest)

/-- One or more `"key": value` members, ending at the closing brace. -/
def parseMembers : Nat → Str → Option (List (Str × Json) × Str)
  | 0, _ => none
  | Nat.succ fuel, s0 =>
    let s := s0.dropWhile isJsonWs
    match s with
    | [] => none
    | c :: rest =>
      if c == '"' then
        match parseStringBody rest with
        | some (k, r1) =>
          match r1.dropWhile isJsonWs with
          | c2 :: r2 =>
            if c2 == ':' then
              match parseValue fuel r2 with
              | some (v, r3) =>
                match r3.dropWhile isJsonWs with
                | c3 :: r4 =>
                  if c3 == ',' then
                    match parseMembers fuel r4 with
                    | some (fs, r5) => some ((k, v) :: fs, r5)
                    | none => none
                  else if c3 == braceR then some ([(k, v)], r4)
                  else none
                | [] => none
              | none => none
            else none
          | [] => none
        | none => none
      else none

/-- One or more array elements, ending at the closing bracket. -/
def parseElems : Nat → Str → Option (List Json × Str)
  | 0, _ => none
  | Nat.succ fuel, s0 =>
    match parseValue fuel s0 with
    | some (v, r1) =>
      match r1.dropWhile isJsonWs with
      | c :: r2 =>
        if c == ',' then
          match parseElems fuel r2 with
          | some (vs, r3) => some (v :: vs, r3)
          | none => none
        else if c == ']' then some ([v], r2)
        else none
      | [] => none
    | none => none

end

/-- Model of `json.loads`: parse one value, require only whitespace after. -/
def parseJson (s : Str) : Option Json :=
  match parseValue (s.length + 1) s with
  | some (v, rest) => if (rest.dropWhile isJsonWs).isEmpty then some v else none
  | none => none

/-- Dictionary field lookup, last duplicate winning as in a Python dict
built by `json.loads`. -/
def jGet (fields : List (Str × Json)) (key : Str) : Option Json :=
  match fields.reverse.find? (fun kv => kv.1 == key) with
  | some kv => some kv.2
  | none => none

/-- Integer rendering, Python `str(int)`. -/
def intRepr (i : Int) : Str :=
  if i < 0 then '-' :: Nat.toDigits 10 i.natAbs else Nat.toDigits 10 i.toNat

mutual

/-- Python `repr` of a decoded JSON value (how a non-string value stored in an
`AppInfo` field would surface inside the f-strings that later consume it). -/
def pyRepr : Json → Str
  | .null => "None".data
  | .bool true => "True".data
  | .bool false => "False".data
  | .num n => intRepr n
  | .str s => squote :: (s ++ [squote])
  | .arr xs => "[".data ++ pyReprElems xs ++ "]".data
  | .obj fs => "\x7b".data ++ pyReprFields fs ++ "\x7d".data

/-- Comma-joined `repr`s of list elements. -/
def pyReprElems : List Json → Str
  | [] => []
  | [x] => pyRepr x
  | x :: xs => pyRepr x ++ ", ".data ++ pyReprElems xs

/-- Comma-joined `'key': repr(value)` renderings of dict entries. -/
def pyReprFields : List (Str × Json) → Str
  | [] => []
  | [(k, v)] => (squote :: (k ++ [squote])) ++ ": ".data ++ pyRepr v
  | (k, v) :: fs =>
    (squote :: (k ++ [squote])) ++ ": ".data ++ pyRepr v ++ ", ".data ++ pyReprFields fs

end

/-- Python `str` of a decoded JSON value. -/
def pyStrOf : Json → Str
  | .str s => s
  | v => pyRepr v

/-- `app_data.get(key, default)` followed by storage in a `Str`-valued field:
a present string field is kept verbatim, a present non-string field is kept as
the text Python would later interpolate for it, a missing field gets the
default. -/
def jsonFieldOr (fields : List (Str × Json)) (key dflt : Str) : Str :=
  match jGet fields key with
  | some v => pyStrOf v
  | none => dflt

/-- `OnboardingAgent.extract_app_info`: try the LLM path (response text
stripped, `json.loads`, field lookups with defaults); any exception — network
error, parse failure, or a non-dict parse result (whose `.get` raises) —
falls through to `_fallback_extraction`. -/
def extractAppInfo (llm : LlmResult) (request : Str) : AppInfo :=
  match llm with
  | .err => fallbackExtraction request
  | .ok response =>
    match parseJson (stripWsEnds response) with
    | some (Json.obj fields) =>
      { name := jsonFieldOr fields "name".data "new-app".data
        description := jsonFieldOr fields "description".data "New application created by AI agent".data
        language := jsonFieldOr fields "language".data "NodeJS".data
        author := jsonFieldOr fields "author".data "AI Agent".data }
    | some _ => fallbackExtraction request
    | none => fallbackExtraction request

/-- Configuration read from environment variables at agent construction. -/
structure Config where
  github_username : Str
  argocd_namespace : Str
  argocd_project : Str
  nodejs_template_path : Str
  gitops_template_path : Str

/-- A repository object returned by the GitHub API (`clone_url` and `id`). -/
structure GhRepo where
  clone_url : Str
  rid : Nat
deriving DecidableEq

/-- A `GithubException`: HTTP status and message text. -/
structure GhError where
  status : Int
  msg : Str
deriving DecidableEq

/-- Outcome of one GitHub API call. -/
inductive GhResult where
  | ok (repo : GhRepo)
  | err (e : GhError)

/-- The GitHub collaborator: `user.create_repo(name, description, ...)` and
`user.get_repo(name)` (the constant `private/auto_init/readme` arguments do
not influence the modelled outcome and are elided). -/
structure GithubEnv where
  create : Str → Str → GhResult
  get : Str → GhResult

/-- The dataclass `RepositoryInfo` of the src variant. -/
structure RepositoryInfo where
  source_repo_url : Str
  gitops_repo_url : Str
  source_repo_id : Str
  gitops_repo_id : Str
deriving DecidableEq, Repr

/-- The deterministically constructed fallback URL
`https://github.com/{username}/{app_name}<suffixPart>`. -/
def ghFallbackUrl (username app_name suffixPart : Str) : Str :=
  "https://github.com/".data ++ username ++ "/".data ++ app_name ++ suffixPart

/-- `OnboardingAgent._get_existing_repositories`: look both repositories up by
name; on any `GithubException` degrade to deterministically constructed URLs
with ids `"unknown"`. -/
def getExistingRepositories (cfg : Config) (env : GithubEnv) (app_name : Str) : RepositoryInfo :=
  match env.get (app_name ++ "-source".data), env.get (app_name ++ "-gitops".data) with
  | GhResult.ok s, GhResult.ok g =>
    { source_repo_url := s.clone_url
      gitops_repo_url := g.clone_url
      source_repo_id := Nat.toDigits 10 s.rid
      gitops_repo_id := Nat.toDigits 10 g.rid }
  | _, _ =>
    { source_repo_url := ghFallbackUrl cfg.github_username app_name "-source.git".data
      gitops_repo_url := ghFallbackUrl cfg.github_username app_name "-gitops.git".data
      source_repo_id := "unknown".data
      gitops_repo_id := "unknown".data }

/-- `OnboardingAgent.create_github_repo`: create `{name}-source` then
`{name}-gitops`; a 422 conflict on either routes to the existing-repository
lookup; any other `GithubException` is re-raised (the error value). -/
def createGithubRepo (cfg : Config) (env : GithubEnv) (app : AppInfo) : Except GhError RepositoryInfo :=
  match env.create (app.name ++ "-source".data) ("Source code for ".data ++ app.description) with
  | GhResult.err e =>
    if e.status = 422 then Except.ok (getExistingRepositories cfg env app.name)
    else Except.error e
  | GhResult.ok s =>
    match env.create (app.name ++ "-gitops".data)
        ("GitOps configuration for ".data ++ app.description) with
    | GhResult.err e =>
      if e.status = 422 then Except.ok (getExistingRepositories cfg env app.name)
      else Except.error e
    | GhResult.ok g =>
      Except.ok
        { source_repo_url := s.clone_url
          gitops_repo_url := g.clone_url
          source_repo_id := Nat.toDigits 10 s.rid
          gitops_repo_id := Nat.toDigits 10 g.rid }

/-- A failed subprocess (`CalledProcessError`) with its captured diagnostics. -/
structure ProcErr where
  msg : Str
deriving DecidableEq

instance {ε α : Type} [DecidableEq ε] [DecidableEq α] : DecidableEq (Except ε α) := fun x y =>
  match x, y with
  | Except.ok a, Except.ok b =>
    if h : a = b then isTrue (by rw [h]) else isFalse (fun he => h (Except.ok.inj he))
  | Except.error a, Except.error b =>
    if h : a = b then isTrue (by rw [h]) else isFalse (fun he => h (Except.error.inj he))
  | Except.ok _, Except.error _ => isFalse (fun he => Except.noConfusion he)
  | Except.error _, Except.ok _ => isFalse (fun he => Except.noConfusion he)

/-- The fixed variable set passed to `template.render(...)` in
`OnboardingAgent._process_template_file`. -/
structure RenderVars where
  appName : Str
  description : Str
  language : Str
  author : Str
  repositoryUrl : Str
  imageName : Str
  imageTag : Str
  ingressHost : Str
deriving DecidableEq

/-- The render variables derived from the configuration and the `AppInfo`. -/
def renderVars (cfg : Config) (app : AppInfo) : RenderVars :=
  { appName := app.name
    description := app.description
    language := app.language
    author := app.author
    repositoryUrl := "https://github.com/".data ++ cfg.github_username ++ "/".data ++ app.name ++ "-source".data
    imageName := cfg.github_username ++ "/".data ++ app.name
    imageTag := "latest".data
    ingressHost := app.name ++ ".local".data }

/-- The fixed allow-list of template suffixes in
`OnboardingAgent._should_process_as_template`. -/
def template_extensions : List Str :=
  [".js".data, ".json".data, ".md".data, ".yaml".data, ".yml".data, ".env.example".data]

/-- `any(filename.endswith(ext) for ext in template_extensions)`. -/
def shouldProcessAsTemplate (filename : Str) : Bool :=
  template_extensions.any (fun ext => ext.isSuffixOf filename)

/-- Environment of one `populate_repo_from_stack` call in the src variant:
the unique scratch directory name chosen by `tempfile`, the clone outcome, the
walked template tree as (filename, content) pairs (directory mirroring is not
modelled; an absent template directory walks as an empty tree), the Jinja2
renderer outcome per file, and the combined outcome of the
config/add/commit/push subprocess sequence. -/
structure PopEnv where
  tmpName : Str
  cloneOk : Except ProcErr Unit
  tree : List (Str × Str)
  render : RenderVars → Str → Except Unit Str
  commitPush : Except ProcErr Unit

/-- `OnboardingAgent._process_template_file`: render the file; if rendering
throws, fall back to a raw copy of the original content. -/
def processTemplateFile (render : RenderVars → Str → Except Unit Str)
    (cfg : Config) (app : AppInfo) (content : Str) : Str :=
  match render (renderVars cfg app) content with
  | Except.ok rendered => rendered
  | Except.error _ => content

/-- `OnboardingAgent._copy_template_files`: template-classified files are
rendered (with per-file raw-copy fallback), all others are byte-copied. -/
def copyTemplateFiles (render : RenderVars → Str → Except Unit Str)
    (cfg : Config) (app : AppInfo) (tree : List (Str × Str)) : List (Str × Str) :=
  tree.map fun f =>
    (f.1, if shouldProcessAsTemplate f.1 then processTemplateFile render cfg app f.2 else f.2)

/-- Result of a src-variant populate call: the boolean the function returns,
the destination file contents written into the clone, and the scratch
directories still present after the call returns. -/
structure PopResult where
  ok : Bool
  files : List (Str × Str)
  leftover : List Str
deriving DecidableEq

/-- `OnboardingAgent.populate_repo_from_stack`: inside
`with tempfile.TemporaryDirectory()` clone, copy the template files, commit
and push; `CalledProcessError` and any other exception are caught and turn
into a `False` return; the `with` block removes the scratch directory on every
exit path.  `repo_url`/`template_path` identify the clone source and walked
tree whose outcomes `env` supplies. -/
def populateRepoFromStack (cfg : Config) (env : PopEnv)
    (repo_url template_path : Str) (app : AppInfo) : PopResult :=
  let acquired : List Str := [env.tmpName]
  let body : Bool × List (Str × Str) :=
    match env.cloneOk with
    | Except.error _ => (false, [])
    | Except.ok _ =>
      let files := copyTemplateFiles env.render cfg app env.tree
      match env.commitPush with
      | Except.error _ => (false, files)
      | Except.ok _ => (true, files)
  { ok := body.1
    files := body.2
    leftover := acquired.filter (fun d => d != env.tmpName) }

/-- The characters of the last `/`-separated component of a URL. -/
def lastComponent (sep : Char) (s : Str) : Str :=
  (s.reverse.takeWhile (fun c => c != sep)).reverse

/-- Python `s.replace(pat, '')`: delete every (left-to-right, non-overlapping)
occurrence of `pat`. -/
def replaceAll (pat : Str) (s : Str) : Str :=
  match s with
  | [] => []
  | c :: rest =>
    if h : pat ≠ [] ∧ pat.isPrefixOf (c :: rest) then
      replaceAll pat ((c :: rest).drop pat.length)
    else
      c :: replaceAll pat rest
termination_by s.length
decreasing_by
  · simp only [List.length_drop, List.length_cons]
    have hp : 0 < pat.length := List.length_pos.mpr h.1
    omega
  · simp

/-- `repo_url.split('/')[-1].replace('.git', '')`. -/
def repoNameOfUrl (url : Str) : Str := replaceAll ".git".data (lastComponent '/' url)

/-- Externally observable actions of the ai variant's populate. -/
inductive AiAct where
  | cleanup
  | clone
  | gitPush
deriving DecidableEq

/-- Environment of one ai-variant populate call. -/
structure AiPopEnv where
  cloneOk : Except ProcErr Unit
  templateExists : Bool
  tree : List (Str × Str)
  render : Str → Except ProcErr Str
  gitOk : Except ProcErr Unit

/-- Result of an ai-variant populate call: the return value or propagated
exception, the external actions performed, the files written, and the scratch
paths still present after the call. -/
structure AiPopResult where
  res : Except ProcErr Bool
  acts : List AiAct
  files : List (Str × Str)
  leftover : List Str
deriving DecidableEq

/-- The ai variant's render-and-write loop: every file is rendered (there is
no per-file fallback); a render failure propagates, losing the loop, but the
files already written stay written. -/
def renderAiFiles (render : Str → Except ProcErr Str) :
    List (Str × Str) → List (Str × Str) × Option ProcErr
  | [] => ([], none)
  | (p, c) :: rest =>
    match render c with
    | Except.error e => ([], some e)
    | Except.ok r =>
      let tail := renderAiFiles render rest
      ((p, r) :: tail.1, tail.2)

/-- The ai variant's `populate_repo_from_stack`: `rm -rf /tmp/{repo_name}`
(check=False), `git clone` into the fixed path `/tmp/{repo_name}` (check=True,
uncaught on failure), ONLY THEN the template-existence check, then the render
loop (uncaught failures) and `git add/commit/push` (uncaught failures).  The
clone directory is never removed before returning. -/
def populateRepoFromStackAi (env : AiPopEnv)
    (repo_url template_path app_name description : Str) : AiPopResult :=
  let repo_name := repoNameOfUrl repo_url
  let clone_dir := "/tmp/".data ++ repo_name
  match env.cloneOk with
  | Except.error e =>
    { res := Except.error e, acts := [AiAct.cleanup, AiAct.clone], files := [], leftover := [] }
  | Except.ok _ =>
    if env.templateExists = false then
      { res := Except.ok false, acts := [AiAct.cleanup, AiAct.clone], files := []
        leftover := [clone_dir] }
    else
      let rendered := renderAiFiles env.render env.tree
      match rendered.2 with
      | some e =>
        { res := Except.error e, acts := [AiAct.cleanup, AiAct.clone], files := rendered.1
          leftover := [clone_dir] }
      | none =>
        match env.gitOk with
        | Except.error e =>
          { res := Except.error e, acts := [AiAct.cleanup, AiAct.clone, AiAct.gitPush]
            files := rendered.1, leftover := [clone_dir] }
        | Except.ok _ =>
          { res := Except.ok true, acts := [AiAct.cleanup, AiAct.clone, AiAct.gitPush]
            files := rendered.1, leftover := [clone_dir] }

def mChunk1 : Str :=
  "apiVersion: argoproj.io/v1alpha1\nkind: Application\nmetadata:\n  name: ".data

def mChunk2 : Str := "\n  namespace: ".data

def mChunk3 : Str := "\n  labels:\n    app: ".data

def mChunk4 : Str := "\n    created-by: ai-onboarding-agent\nspec:\n  project: ".data

def mChunk5 : Str := "\n  source:\n    repoURL: ".data

def mChunk6 : Str :=
  "\n    targetRevision: HEAD\n    path: .\n  destination:\n    server: https://kubernetes.default.svc\n    namespace: default\n  syncPolicy:\n    automated:\n      prune: true\n      selfHeal: true\n    syncOptions:\n    - CreateNamespace=true\n    - PrunePropagationPolicy=foreground\n    - PruneLast=true\n    retry:\n      limit: 5\n      backoff:\n        duration: 5s\n        factor: 2\n        maxDuration: 3m\n  ignoreDifferences:\n  - group: apps\n    kind: Deployment\n    jsonPointers:\n    - /spec/replicas".data

/-- `OnboardingAgent._generate_argocd_manifest`, the f-string chunk by chunk. -/
def genArgoManifest (cfg : Config) (app : AppInfo) (gitops_repo_url : Str) : Str :=
  mChunk1 ++ app.name ++ mChunk2 ++ cfg.argocd_namespace ++ mChunk3 ++ app.name ++
    mChunk4 ++ cfg.argocd_project ++ mChunk5 ++ gitops_repo_url ++ mChunk6

def aChunk1 : Str :=
  "apiVersion: argoproj.io/v1alpha1\nkind: Application\nmetadata:\n  name: ".data

def aChunk2 : Str :=
  "\n  namespace: argocd\nspec:\n  project: default\n  source:\n    repoURL: ".data

def aChunk3 : Str :=
  "\n    targetRevision: HEAD\n    path: .\n  destination:\n    server: https://kubernetes.default.svc\n    namespace: default\n  syncPolicy:\n    automated:\n      prune: true\n      selfHeal: true\n".data

/-- The ai variant's ArgoCD Application manifest f-string (note: no labels). -/
def genArgoManifestAi (app_name gitops_repo_url : Str) : Str :=
  aChunk1 ++ app_name ++ aChunk2 ++ gitops_repo_url ++ aChunk3

/-- The cluster collaborator of the src variant: the name `tempfile` picks
for the manifest file, the `config.load_kube_config()` outcome and the
`kubectl apply` outcome per manifest text. -/
structure K8sEnv where
  tmpManifest : Str
  kubeLoad : Except Unit Unit
  kubectlApply : Str → Except ProcErr Str

/-- Result of a manifest submission: the boolean returned and the scratch
files remaining afterwards. -/
structure ApplyResult where
  ok : Bool
  leftover : List Str
deriving DecidableEq

/-- `OnboardingAgent._apply_kubernetes_manifest`: write the manifest to a
`NamedTemporaryFile(delete=False)`, `kubectl apply` it (a failure is caught
and returns `False`), and unlink the file in a `finally` block on success and
failure alike. -/
def applyKubernetesManifest (env : K8sEnv) (manifest : Str) : ApplyResult :=
  let acquired : List Str := [env.tmpManifest]
  let ok : Bool :=
    match env.kubectlApply manifest with
    | Except.ok _ => true
    | Except.error _ => false
  { ok := ok, leftover := acquired.filter (fun f => f != env.tmpManifest) }

/-- `OnboardingAgent.create_argocd_application`: load the cluster config,
generate the manifest, apply it; every exception is caught and becomes a
`False` return. -/
def createArgocdApplication (cfg : Config) (env : K8sEnv) (app : AppInfo)
    (gitops_repo_url : Str) : ApplyResult :=
  match env.kubeLoad with
  | Except.error _ => { ok := false, leftover := [] }
  | Except.ok _ => applyKubernetesManifest env (genArgoManifest cfg app gitops_repo_url)

/-- The ai variant's cluster collaborator. -/
structure AiK8sEnv where
  kubeLoad : Except Unit Unit
  kubectlApply : Str → Except ProcErr Unit

/-- The ai variant's `create_argocd_application`: `load_kube_config` is not
guarded (its failure propagates), the manifest is written to the fixed path
`/tmp/{app_name}-argocd.yaml` which is never deleted; a `kubectl` failure is
caught and returns `False`.  Second component: scratch files left behind. -/
def createArgocdApplicationAi (env : AiK8sEnv) (app_name gitops_repo_url : Str) :
    Except Unit Bool × List Str :=
  match env.kubeLoad with
  | Except.error e => (Except.error e, [])
  | Except.ok _ =>
    let manifest_file := "/tmp/".data ++ app_name ++ "-argocd.yaml".data
    match env.kubectlApply (genArgoManifestAi app_name gitops_repo_url) with
    | Except.ok _ => (Except.ok true, [manifest_file])
    | Except.error _ => (Except.ok false, [manifest_file])

/-- The five pipeline stages of `run_onboarding_flow`. -/
inductive Stage where
  | extract
  | createRepos
  | popSource
  | popGitops
  | argocd
deriving DecidableEq

/-- The result dictionary assembled by `run_onboarding_flow`. -/
structure OnboardResult where
  success : Bool
  app_info : Option AppInfo
  repositories : Option RepositoryInfo
  argocd_created : Bool
  error : Option Str
  timestamp : Str
deriving DecidableEq

/-- Environment of one whole onboarding run: one sub-environment per external
collaborator invocation, plus `datetime.now()`. -/
structure FlowEnv where
  llm : LlmResult
  github : GithubEnv
  popSourceEnv : PopEnv
  popGitopsEnv : PopEnv
  k8s : K8sEnv
  now : Str

/-- `OnboardingAgent.run_onboarding_flow`: the five stages in sequence, the
result record filled incrementally, any raised stage error caught at the top
and stored as `error` with `success` left `False`.  The second component
traces which stages were invoked. -/
def runOnboardingFlow (cfg : Config) (env : FlowEnv) (request : Str) :
    OnboardResult × List Stage :=
  let app_info := extractAppInfo env.llm request
  match createGithubRepo cfg env.github app_info with
  | Except.error e =>
    ({ success := false, app_info := some app_info, repositories := none
       argocd_created := false, error := some e.msg, timestamp := env.now },
     [Stage.extract, Stage.createRepos])
  | Except.ok repo_info =>
    if (populateRepoFromStack cfg env.popSourceEnv repo_info.source_repo_url
          cfg.nodejs_template_path app_info).ok = false then
      ({ success := false, app_info := some app_info, repositories := some repo_info
         argocd_created := false, error := some "Failed to populate source repository".data
         timestamp := env.now },
       [Stage.extract, Stage.createRepos, Stage.popSource])
    else if (populateRepoFromStack cfg env.popGitopsEnv repo_info.gitops_repo_url
          cfg.gitops_template_path app_info).ok = false then
      ({ success := false, app_info := some app_info, repositories := some repo_info
         argocd_created := false, error := some "Failed to populate GitOps repository".data
         timestamp := env.now },
       [Stage.extract, Stage.createRepos, Stage.popSource, Stage.popGitops])
    else
      let ar := createArgocdApplication cfg env.k8s app_info repo_info.gitops_repo_url
      ({ success := true, app_info := some app_info, repositories := some repo_info
         argocd_created := ar.ok, error := none, timestamp := env.now },
       [Stage.extract, Stage.createRepos, Stage.popSource, Stage.popGitops, Stage.argocd])

/-- Whether a string is empty or starts with a character outside `p`. -/
def headNot (p : Char → Bool) : Str → Bool
  | [] => true
  | c :: _ => !(p c)

/-- Model of the anchored regex `^[a-z0-9-]+$` from the spec's name
invariant. -/
def matchesLowerHyphen (s : Str) : Bool :=
  !s.isEmpty && s.all (fun c => isLowerAlpha c || isDigitCh c || c == '-')

/-- The widened class `^[a-z0-9_-]+$` that the src fallback actually
guarantees (underscores pass through its capture class). -/
def matchesLowerHyphenUnd (s : Str) : Bool :=
  !s.isEmpty && s.all (fun c => isLowerAlpha c || isDigitCh c || c == '-' || c == '_')

/-- Whether a provisioning outcome respects the URL naming invariant. -/
def repoUrlsOk (name : Str) : Except GhError RepositoryInfo → Prop
  | Except.ok info =>
    isSubstr (name ++ "-source".data) info.source_repo_url = true
      ∧ isSubstr (name ++ "-gitops".data) info.gitops_repo_url = true
  | Except.error _ => True

/-- Shared concrete configuration for witnesses. -/
def cfgW : Config :=
  { github_username := "test-user".data
    argocd_namespace := "argocd".data
    argocd_project := "default".data
    nodejs_template_path := "/stacks/nodejs-template".data
    gitops_template_path := "/stacks/gitops-template".data }

/-- Shared concrete `AppInfo` for witnesses. -/
def appW : AppInfo :=
  { name := "inventory-api".data
    description := "inventory service".data
    language := "NodeJS".data
    author := "AI Agent".data }

/-- A well-behaved hosting environment: each call succeeds and reports a
clone URL that ends in the requested repository name. -/
def envGhW : GithubEnv :=
  { create := fun n _ => GhResult.ok { clone_url := n ++ ".git".data, rid := 5 }
    get := fun n => GhResult.ok { clone_url := n ++ ".git".data, rid := 7 } }

/-- The constant destination block of both manifest generators. -/
def destBlock : Str :=
  "  destination:\n    server: https://kubernetes.default.svc\n    namespace: default\n".data

/-- Everything of the src manifest before the metadata namespace value. -/
def manifestMetaPre (name : Str) : Str := mChunk1 ++ name ++ mChunk2

/-- Everything of the src manifest after the metadata namespace value; it does
not depend on the configured ArgoCD namespace. -/
def manifestMetaRest (proj name url : Str) : Str :=
  mChunk3 ++ name ++ mChunk4 ++ proj ++ mChunk5 ++ url ++ mChunk6

/-- An ai-variant populate environment whose first template file fails to
render. -/
def aiPopEnvRenderFail : AiPopEnv :=
  { cloneOk := Except.ok ()
    templateExists := true
    tree := [("config.yaml".data, "bad \x7b\x7b".data)]
    render := fun c =>
      if c == "bad \x7b\x7b".data then Except.error { msg := "TemplateSyntaxError".data }
      else Except.ok c
    gitOk := Except.ok () }

/-- A src-variant populate environment with one failing template render and
one binary file. -/
def popEnvW : PopEnv :=
  { tmpName := "/tmp/tmpab12".data
    cloneOk := Except.ok ()
    tree := [("README.md".data, "hello \x7b\x7b".data), ("logo.png".data, "bits".data)]
    render := fun _ c => if c == "hello \x7b\x7b".data then Except.error () else Except.ok c
    commitPush := Except.ok () }

/-- A fully succeeding ai-variant populate environment. -/
def aiPopEnvOkW : AiPopEnv :=
  { cloneOk := Except.ok ()
    templateExists := true
    tree := []
    render := fun c => Except.ok c
    gitOk := Except.ok () }

/-- A fully succeeding ai-variant cluster environment. -/
def aiK8sEnvW : AiK8sEnv :=
  { kubeLoad := Except.ok ()
    kubectlApply := fun _ => Except.ok () }

/-- An ai-variant populate environment whose template root is absent. -/
def aiPopEnvNoTpl : AiPopEnv :=
  { cloneOk := Except.ok ()
    templateExists := false
    tree := [("a.md".data, "b".data)]
    render := fun c => Except.ok c
    gitOk := Except.ok () }

/-- A src-variant populate environment that fails at the clone step. -/
def popFailEnv : PopEnv :=
  { tmpName := "/tmp/t9".data
    cloneOk := Except.error { msg := "fatal: could not read Username".data }
    tree := []
    render := fun _ c => Except.ok c
    commitPush := Except.ok () }

/-- A fully succeeding src-variant populate environment. -/
def popOkEnv : PopEnv :=
  { tmpName := "/tmp/t1".data
    cloneOk := Except.ok ()
    tree := []
    render := fun _ c => Except.ok c
    commitPush := Except.ok () }

/-- A flow environment in which the source-repository populate fails. -/
def flowEnvPopFail : FlowEnv :=
  { llm := LlmResult.err
    github := envGhW
    popSourceEnv := popFailEnv
    popGitopsEnv := popOkEnv
    k8s := { tmpManifest := "/tmp/m1.yaml".data, kubeLoad := Except.ok ()
             kubectlApply := fun _ => Except.ok "created".data }
    now := "2026-10-12T00:00:00".data }

/-- A flow environment in which only the manifest-apply step fails. -/
def flowEnvArgoFail : FlowEnv :=
  { llm := LlmResult.err
    github := envGhW
    popSourceEnv := popOkEnv
    popGitopsEnv := popOkEnv
    k8s := { tmpManifest := "/tmp/m2.yaml".data, kubeLoad := Except.ok ()
             kubectlApply := fun _ => Except.error { msg := "kubectl apply failed".data } }
    now := "2026-10-12T00:00:01".data }

example : (fallbackExtraction "I need to deploy my new NodeJS service called inventory-api".data).name
    = "inventory-api".data := by decide

example : aiFallbackName "Deploy my payment-processor app".data = "payment-processor".data := by decide

example : aiFallbackName "Deploy order-service".data = "order-service".data := by decide

example : aiFallbackName "I need to create authentication-service".data = "authentication-service".data := by decide

example : aiFallbackName "Just deploy something generic".data = "something".data := by decide

example : aiFallbackName "hello world".data = "my-app".data := by decide

example : parseJson "\x7b\x7d".data = some (Json.obj []) := rfl

example : parseJson "not json".data = none := rfl

example : parseJson " \x7b\"name\": \"shop\", \"n\": 3\x7d ".data
    = some (Json.obj [("name".data, Json.str "shop".data), ("n".data, Json.num 3)]) := rfl

example : (extractAppInfo (LlmResult.ok "\x7b\"name\": \"shop-api\"\x7d".data) "x".data).name
    = "shop-api".data := rfl

example : (extractAppInfo (LlmResult.ok "\x7b\x7d".data) "x".data).name = "new-app".data := rfl

example : aiExtractName (LlmResult.ok "  Shop_API!  ".data) "x".data = "shopapi".data := rfl

theorem isPrefixOf_eq_take : ∀ (t s : Str), t.isPrefixOf s = true ↔ t = s.take t.length
  | [], s => by simp [List.isPrefixOf]
  | a :: t, [] => by simp [List.isPrefixOf]
  | a :: t, b :: s => by
    simp only [List.isPrefixOf, Bool.and_eq_true, beq_iff_eq, List.length_cons, List.take_succ_cons,
      List.cons.injEq]
    exact and_congr Iff.rfl (isPrefixOf_eq_take t s)

theorem prefixOf_append_self : ∀ (t u : Str), t.isPrefixOf (t ++ u) = true
  | [], _ => by simp [List.isPrefixOf]
  | a :: t, u => by simp [List.isPrefixOf, prefixOf_append_self t u]

theorem isSubstr_append_of_prefixOf :
    ∀ (A t s : Str), t.isPrefixOf s = true → isSubstr t (A ++ s) = true
  | [], t, s, h => by
    cases s with
    | nil =>
      have : t = [] := by simpa [isPrefixOf_eq_take] using h
      simp [this, isSubstr]
    | cons c s => simp [isSubstr, h]
  | a :: A, t, s, h => by
    simp [isSubstr, isSubstr_append_of_prefixOf A t s h]

/-- Substring at an explicit decomposition point. -/
theorem isSubstr_of_decomp (A t B : Str) : isSubstr t (A ++ t ++ B) = true := by
  rw [List.append_assoc]
  exact isSubstr_append_of_prefixOf A t (t ++ B) (prefixOf_append_self t B)

theorem takeWhile_append_all {p : Char → Bool} :
    ∀ (X r : Str), X.all p = true → (X ++ r).takeWhile p = X ++ r.takeWhile p
  | [], r, _ => rfl
  | x :: X, r, h => by
    simp only [List.all_cons, Bool.and_eq_true] at h
    simp [List.takeWhile_cons, h.1, takeWhile_append_all X r h.2]

theorem takeWhile_headNot {p : Char → Bool} (r : Str) (h : headNot p r = true) :
    r.takeWhile p = [] := by
  cases r with
  | nil => rfl
  | cons c r =>
    simp only [headNot, Bool.not_eq_true'] at h
    simp [List.takeWhile_cons, h]

theorem dropWhile_headNot {p : Char → Bool} (r : Str) (h : headNot p r = true) :
    r.dropWhile p = r := by
  cases r with
  | nil => rfl
  | cons c r =>
    simp only [headNot, Bool.not_eq_true'] at h
    simp [List.dropWhile_cons, h]

theorem searchFrom_append_none (m : Str → Option Str) :
    ∀ (pre w : Str), (∀ q : Str, q ≠ [] → (∃ p, p ++ q = pre) → m (q ++ w) = none) →
      searchFrom m (pre ++ w) = searchFrom m w
  | [], w, _ => rfl
  | c :: pre, w, h => by
    have hc : m (c :: (pre ++ w)) = none := by
      have := h (c :: pre) (by simp) ⟨[], rfl⟩
      simpa using this
    have ih := searchFrom_append_none m pre w
      (fun q hq hex => by
        obtain ⟨p, hp⟩ := hex
        exact h q hq ⟨c :: p, by rw [← hp]; rfl⟩)
    show searchFrom m ((c :: pre) ++ w) = searchFrom m w
    rw [List.cons_append]
    simp only [searchFrom, hc]
    exact ih

theorem matchKW_exact (lit : Str) (aq : Bool) (cls : Char → Bool) (X rest : Str)
    (hX : X ≠ []) (hcls : X.all cls = true)
    (hrest : headNot cls rest = true)
    (hclsSpace : ∀ c, cls c = true → isSpaceCh c = false)
    (hclsQuote : ∀ c, cls c = true → isQuoteCh c = false) :
    matchKW lit aq cls (lit ++ ' ' :: (X ++ rest)) = some X := by
  cases X with
  | nil => exact absurd rfl hX
  | cons x X =>
    have hx : cls x = true := by
      simp only [List.all_cons, Bool.and_eq_true] at hcls
      exact hcls.1
    have hxs : isSpaceCh x = false := hclsSpace x hx
    have hxq : isQuoteCh x = false := hclsQuote x hx
    have hdrop : (x :: (X ++ rest)).dropWhile isSpaceCh = x :: (X ++ rest) := by
      simp [List.dropWhile_cons, hxs]
    have htake : (x :: (X ++ rest)).takeWhile cls = x :: X := by
      have h1 := takeWhile_append_all (p := cls) (x :: X) rest hcls
      rw [List.cons_append] at h1
      rw [h1, takeWhile_headNot rest hrest, List.append_nil]
    have hsp : isSpaceCh ' ' = true := by decide
    unfold matchKW
    rw [prefixOf_append_self]
    simp only [if_true, List.drop_left]
    rw [List.cons_append]
    cases aq with
    | false =>
      simp [matchAfterLit, captureTok, afterQuoteOpt, hsp, hdrop, htake]
    | true =>
      simp [matchAfterLit, captureTok, afterQuoteOpt, hsp, hdrop, htake, hxq]

theorem matchKW_none_of_not_prefixOf (lit : Str) (aq : Bool) (cls : Char → Bool) (s : Str)
    (h : lit.isPrefixOf s = false) : matchKW lit aq cls s = none := by
  unfold matchKW
  rw [h]
  rfl

/-- Leftmost-search result for a keyword pattern at an explicit decomposition
point: no occurrence of the keyword literal can complete inside `pre` (the
`hpre` bound covers straddling starts, which see at most the first
`lit.length - 1` keyword characters), and the occurrence at the seam matches
with capture `X`. -/
theorem searchKW_found (lit : Str) (aq : Bool) (cls : Char → Bool) (pre X rest : Str)
    (hlit : lit ≠ [])
    (hX : X ≠ []) (hcls : X.all cls = true)
    (hrest : headNot cls rest = true)
    (hclsSpace : ∀ c, cls c = true → isSpaceCh c = false)
    (hclsQuote : ∀ c, cls c = true → isQuoteCh c = false)
    (hpre : isSubstr lit (pre ++ lit.take (lit.length - 1)) = false) :
    searchFrom (matchKW lit aq cls) (pre ++ (lit ++ ' ' :: (X ++ rest))) = some X := by
  have hL : 1 ≤ lit.length := List.length_pos.mpr hlit
  rw [searchFrom_append_none]
  · cases lit with
    | nil => exact absurd rfl hlit
    | cons l0 lit1 =>
      have he := matchKW_exact (l0 :: lit1) aq cls X rest hX hcls hrest hclsSpace hclsQuote
      rw [List.cons_append] at he
      rw [List.cons_append]
      simp [searchFrom, he]
  · rintro q hq ⟨p, hp⟩
    apply matchKW_none_of_not_prefixOf
    by_contra hP
    rw [Bool.not_eq_false] at hP
    have hq1 : 1 ≤ q.length := List.length_pos.mpr hq
    rw [isPrefixOf_eq_take] at hP
    rw [List.take_append_eq_append_take] at hP
    have hk : lit.length - q.length ≤ lit.length - 1 := by omega
    have hsplit : (lit ++ ' ' :: (X ++ rest)).take (lit.length - q.length)
        = lit.take (lit.length - q.length) := by
      rw [List.take_append_eq_append_take]
      have : lit.length - q.length - lit.length = 0 := by omega
      rw [this, List.take_zero, List.append_nil]
    rw [hsplit] at hP
    have htt : lit.take (lit.length - q.length)
        = (lit.take (lit.length - 1)).take (lit.length - q.length) := by
      rw [List.take_take]
      congr 1
      omega
    have hpref : lit.isPrefixOf (q ++ lit.take (lit.length - 1)) = true := by
      rw [isPrefixOf_eq_take, List.take_append_eq_append_take]
      rw [← htt, ← hP]
    have : isSubstr lit (pre ++ lit.take (lit.length - 1)) = true := by
      rw [← hp, List.append_assoc]
      exact isSubstr_append_of_prefixOf p lit _ hpref
    rw [this] at hpre
    exact Bool.noConfusion hpre

theorem char_in_range_ne {lo hi c x : Char} (h1 : lo ≤ c) (h2 : c ≤ hi)
    (hx : x < lo ∨ hi < x) : (c == x) = false := by
  rw [beq_eq_false_iff_ne]
  rintro rfl
  rcases hx with hx | hx
  · exact absurd h1 (not_le.mpr hx)
  · exact absurd h2 (not_le.mpr hx)

theorem beq_false_of_toNat_ne {c x : Char} (h : c.toNat ≠ x.toNat) : (c == x) = false := by
  rw [beq_eq_false_iff_ne]
  rintro rfl
  exact h rfl

theorem classSrc_toNat_ge (c : Char) (h : isClassSrc c = true) : 45 ≤ c.toNat := by
  unfold isClassSrc isLowerAlpha isUpperAlpha isDigitCh at h
  simp only [Bool.or_eq_true, Bool.and_eq_true, decide_eq_true_eq, beq_iff_eq, or_assoc] at h
  rcases h with ⟨h1, _⟩ | ⟨h1, _⟩ | ⟨h1, _⟩ | h1 | h1
  · have h2 : 'a'.toNat ≤ c.toNat := by exact_mod_cast h1
    have e : 'a'.toNat = 97 := rfl
    omega
  · have h2 : 'A'.toNat ≤ c.toNat := by exact_mod_cast h1
    have e : 'A'.toNat = 65 := rfl
    omega
  · have h2 : '0'.toNat ≤ c.toNat := by exact_mod_cast h1
    have e : '0'.toNat = 48 := rfl
    omega
  · subst h1; decide
  · subst h1; decide

theorem natBeq_false_of_ne {a b : Nat} (h : a ≠ b) : (a == b) = false := by
  simpa using h

theorem notSpace_of_classSrc (c : Char) (h : isClassSrc c = true) : isSpaceCh c = false := by
  have hn := classSrc_toNat_ge c h
  unfold isSpaceCh
  rw [natBeq_false_of_ne (by omega), natBeq_false_of_ne (by omega),
    natBeq_false_of_ne (by omega), natBeq_false_of_ne (by omega),
    natBeq_false_of_ne (by omega), natBeq_false_of_ne (by omega)]
  rfl

theorem notQuote_of_classSrc (c : Char) (h : isClassSrc c = true) : isQuoteCh c = false := by
  have hn := classSrc_toNat_ge c h
  have e1 : ('"').toNat = 34 := rfl
  have e2 : squote.toNat = 39 := rfl
  unfold isQuoteCh
  rw [beq_false_of_toNat_ne (by omega), beq_false_of_toNat_ne (by omega)]
  rfl

theorem classSrc_of_classAi (c : Char) (h : isClassAi c = true) : isClassSrc c = true := by
  unfold isClassAi at h
  unfold isClassSrc
  simp only [Bool.or_eq_true] at h ⊢
  tauto

theorem lowerChar_not_upper (c : Char) : isUpperAlpha (lowerChar c) = false := by
  unfold lowerChar
  by_cases h : ('A' ≤ c && c ≤ 'Z') = true
  · rw [if_pos h]
    simp only [Bool.and_eq_true, decide_eq_true_eq] at h
    have hA : 'A'.toNat ≤ c.toNat := by exact_mod_cast h.1
    have hZ : c.toNat ≤ 'Z'.toNat := by exact_mod_cast h.2
    have eA : 'A'.toNat = 65 := rfl
    have eZ : 'Z'.toNat = 90 := rfl
    have hr : (Char.ofNat (c.toNat + 32)).toNat = c.toNat + 32 := by
      have hv : (c.toNat + 32).isValidChar := Or.inl (by omega)
      unfold Char.ofNat
      rw [dif_pos hv]
      unfold Char.ofNatAux Char.toNat
      simp [UInt32.toNat, BitVec.toNat_ofNatLt]
    have hnle : ¬ (Char.ofNat (c.toNat + 32) ≤ 'Z') := by
      intro hle
      have hle2 : (Char.ofNat (c.toNat + 32)).toNat ≤ 'Z'.toNat := by exact_mod_cast hle
      omega
    unfold isUpperAlpha
    simp [hnle]
  · rw [if_neg h]
    unfold isUpperAlpha
    simpa using h

theorem not_upper_of_mem_lowerStr {c : Char} {s : Str} (h : c ∈ lowerStr s) :
    isUpperAlpha c = false := by
  unfold lowerStr at h
  obtain ⟨d, _, rfl⟩ := List.mem_map.mp h
  exact lowerChar_not_upper d

theorem takeWhile_all (p : Char → Bool) : ∀ l : Str, (l.takeWhile p).all p = true
  | [] => rfl
  | c :: l => by
    by_cases hc : p c = true
    · simp [List.takeWhile_cons, hc, takeWhile_all p l]
    · simp [List.takeWhile_cons, hc]

theorem mem_of_mem_takeWhile (p : Char → Bool) :
    ∀ (l : Str) (c : Char), c ∈ l.takeWhile p → c ∈ l
  | [], c, h => by simp [List.takeWhile] at h
  | a :: l, c, h => by
    by_cases ha : p a = true
    · rw [List.takeWhile_cons, if_pos ha] at h
      rcases List.mem_cons.mp h with rfl | h
      · exact List.mem_cons_self _ _
      · exact List.mem_cons_of_mem _ (mem_of_mem_takeWhile p l c h)
    · rw [List.takeWhile_cons, if_neg ha] at h
      simp at h

theorem mem_of_mem_dropWhile (p : Char → Bool) :
    ∀ (l : Str) (c : Char), c ∈ l.dropWhile p → c ∈ l
  | [], c, h => by simp [List.dropWhile] at h
  | a :: l, c, h => by
    by_cases ha : p a = true
    · rw [List.dropWhile_cons, if_pos ha] at h
      exact List.mem_cons_of_mem _ (mem_of_mem_dropWhile p l c h)
    · rw [List.dropWhile_cons, if_neg ha] at h
      exact h

theorem mem_of_mem_drop {l : Str} {n : Nat} {c : Char} (h : c ∈ l.drop n) : c ∈ l := by
  have hs : l.drop n <:+ l := List.drop_suffix n l
  exact hs.subset h

theorem captureTok_some {cls : Char → Bool} {s2 t : Str} (h : captureTok cls s2 = some t) :
    t ≠ [] ∧ t.all cls = true ∧ ∀ c ∈ t, c ∈ s2 := by
  unfold captureTok at h
  by_cases he : (s2.takeWhile cls).isEmpty = true
  · rw [if_pos he] at h
    exact absurd h (by simp)
  · rw [if_neg he] at h
    have ht : s2.takeWhile cls = t := Option.some.inj h
    subst ht
    refine ⟨?_, takeWhile_all cls s2, fun c hc => mem_of_mem_takeWhile cls s2 c hc⟩
    intro hnil
    rw [hnil] at he
    exact he rfl

theorem mem_afterQuoteOpt (aq : Bool) (s1 : Str) (c : Char) (h : c ∈ afterQuoteOpt aq s1) :
    c ∈ s1 := by
  unfold afterQuoteOpt at h
  cases aq with
  | false => exact h
  | true =>
    cases s1 with
    | nil => simp at h
    | cons q r =>
      simp only [if_true] at h
      by_cases hq : isQuoteCh q = true
      · rw [if_pos hq] at h
        exact List.mem_cons_of_mem _ h
      · rw [if_neg hq] at h
        exact h

theorem matchAfterLit_some {aq : Bool} {cls : Char → Bool} {s t : Str}
    (h : matchAfterLit aq cls s = some t) :
    t ≠ [] ∧ t.all cls = true ∧ ∀ c ∈ t, c ∈ s := by
  cases s with
  | nil => simp [matchAfterLit] at h
  | cons a rest =>
    simp only [matchAfterLit] at h
    by_cases ha : isSpaceCh a = true
    · rw [if_pos ha] at h
      obtain ⟨h1, h2, h3⟩ := captureTok_some h
      exact ⟨h1, h2, fun c hc => List.mem_cons_of_mem _
        (mem_of_mem_dropWhile _ _ _ (mem_afterQuoteOpt _ _ _ (h3 c hc)))⟩
    · rw [if_neg ha] at h
      exact absurd h (by simp)

theorem matchKW_some {lit : Str} {aq : Bool} {cls : Char → Bool} {s t : Str}
    (h : matchKW lit aq cls s = some t) :
    t ≠ [] ∧ t.all cls = true ∧ ∀ c ∈ t, c ∈ s := by
  unfold matchKW at h
  by_cases hp : lit.isPrefixOf s = true
  · rw [if_pos hp] at h
    obtain ⟨h1, h2, h3⟩ := matchAfterLit_some h
    exact ⟨h1, h2, fun c hc => mem_of_mem_drop (h3 c hc)⟩
  · rw [if_neg hp] at h
    exact absurd h (by simp)

theorem matchQuoted_some {cls : Char → Bool} {s t : Str} (h : matchQuoted cls s = some t) :
    t ≠ [] ∧ t.all cls = true ∧ ∀ c ∈ t, c ∈ s := by
  cases s with
  | nil => simp [matchQuoted] at h
  | cons q rest =>
    simp only [matchQuoted] at h
    by_cases hq : isQuoteCh q = true
    · rw [if_pos hq] at h
      by_cases he : (rest.takeWhile cls).isEmpty = true
      · rw [if_pos he] at h
        exact absurd h (by simp)
      · rw [if_neg he] at h
        cases hd : rest.drop (rest.takeWhile cls).length with
        | nil =>
          rw [hd] at h
          exact absurd h (by simp)
        | cons q2 r2 =>
          rw [hd] at h
          dsimp only [] at h
          by_cases hq2 : isQuoteCh q2 = true
          · rw [if_pos hq2] at h
            have ht : rest.takeWhile cls = t := Option.some.inj h
            subst ht
            refine ⟨?_, takeWhile_all cls rest,
              fun c hc => List.mem_cons_of_mem _ (mem_of_mem_takeWhile cls rest c hc)⟩
            intro hnil
            rw [hnil] at he
            exact he rfl
          · rw [if_neg hq2] at h
            exact absurd h (by simp)
    · rw [if_neg hq] at h
      exact absurd h (by simp)

theorem matchTokThen_some {cls : Char → Bool} {lit s t : Str}
    (h : matchTokThen cls lit s = some t) :
    t ≠ [] ∧ t.all cls = true ∧ ∀ c ∈ t, c ∈ s := by
  simp only [matchTokThen] at h
  by_cases he : (s.takeWhile cls).isEmpty = true
  · rw [if_pos he] at h
    exact absurd h (by simp)
  · rw [if_neg he] at h
    cases hd : s.drop (s.takeWhile cls).length with
    | nil =>
      rw [hd] at h
      exact absurd h (by simp)
    | cons c2 r2 =>
      rw [hd] at h
      dsimp only [] at h
      by_cases hs2 : isSpaceCh c2 = true
      · rw [if_pos hs2] at h
        by_cases hpl : lit.isPrefixOf (r2.dropWhile isSpaceCh) = true
        · rw [if_pos hpl] at h
          have ht : s.takeWhile cls = t := Option.some.inj h
          subst ht
          refine ⟨?_, takeWhile_all cls s, fun c hc => mem_of_mem_takeWhile cls s c hc⟩
          intro hnil
          rw [hnil] at he
          exact he rfl
        · rw [if_neg hpl] at h
          exact absurd h (by simp)
      · rw [if_neg hs2] at h
        exact absurd h (by simp)

theorem searchFrom_some {m : Str → Option Str} :
    ∀ {s t : Str}, searchFrom m s = some t → ∃ u : Str, (∀ c ∈ u, c ∈ s) ∧ m u = some t := by
  intro s
  induction s with
  | nil => intro t h; simp [searchFrom] at h
  | cons a rest ih =>
    intro t h
    simp only [searchFrom] at h
    cases hm : m (a :: rest) with
    | some t2 =>
      rw [hm] at h
      have : t2 = t := Option.some.inj h
      subst this
      exact ⟨a :: rest, fun c hc => hc, hm⟩
    | none =>
      rw [hm] at h
      obtain ⟨u, hu, hmu⟩ := ih h
      exact ⟨u, fun c hc => List.mem_cons_of_mem _ (hu c hc), hmu⟩

theorem firstMatch_some :
    ∀ {ps : List (Str → Option Str)} {s t : Str},
      firstMatch ps s = some t → ∃ p ∈ ps, p s = some t := by
  intro ps
  induction ps with
  | nil => intro s t h; simp [firstMatch] at h
  | cons p ps ih =>
    intro s t h
    simp only [firstMatch] at h
    cases hp : p s with
    | some t2 =>
      rw [hp] at h
      have : t2 = t := Option.some.inj h
      subst this
      exact ⟨p, List.mem_cons_self _ _, hp⟩
    | none =>
      rw [hp] at h
      obtain ⟨q, hq, hqs⟩ := ih h
      exact ⟨q, List.mem_cons_of_mem _ hq, hqs⟩

theorem nameCharUnd_of_src {c : Char} (h1 : isClassSrc c = true) (h2 : isUpperAlpha c = false) :
    (isLowerAlpha c || isDigitCh c || c == '-' || c == '_') = true := by
  unfold isClassSrc at h1
  simp only [Bool.or_eq_true, or_assoc] at h1 ⊢
  rcases h1 with h | h | h | h | h
  · tauto
  · rw [h] at h2
    cases h2
  · tauto
  · tauto
  · tauto

theorem nameChar_of_ai {c : Char} (h1 : isClassAi c = true) (h2 : isUpperAlpha c = false) :
    (isLowerAlpha c || isDigitCh c || c == '-') = true := by
  unfold isClassAi at h1
  simp only [Bool.or_eq_true, or_assoc] at h1 ⊢
  rcases h1 with h | h | h | h
  · tauto
  · rw [h] at h2
    cases h2
  · tauto
  · tauto

/-- A name produced by the src fallback search is a non-empty token over
`[a-z0-9_-]` drawn from the lowercased request. -/
theorem fallback_search_name_valid {request t : Str}
    (h : firstMatch namePatterns (lowerStr request) = some t) :
    matchesLowerHyphenUnd t = true := by
  obtain ⟨p, hp, hps⟩ := firstMatch_some h
  have props : t ≠ [] ∧ t.all isClassSrc = true ∧ ∀ c ∈ t, c ∈ lowerStr request := by
    simp only [namePatterns, List.mem_cons, List.mem_singleton, List.not_mem_nil, or_false] at hp
    rcases hp with rfl | rfl | rfl
    · obtain ⟨u, hu, hmu⟩ := searchFrom_some hps
      obtain ⟨h1, h2, h3⟩ := matchKW_some hmu
      exact ⟨h1, h2, fun c hc => hu c (h3 c hc)⟩
    · obtain ⟨u, hu, hmu⟩ := searchFrom_some hps
      obtain ⟨h1, h2, h3⟩ := matchKW_some hmu
      exact ⟨h1, h2, fun c hc => hu c (h3 c hc)⟩
    · obtain ⟨u, hu, hmu⟩ := searchFrom_some hps
      obtain ⟨h1, h2, h3⟩ := matchQuoted_some hmu
      exact ⟨h1, h2, fun c hc => hu c (h3 c hc)⟩
  unfold matchesLowerHyphenUnd
  rw [Bool.and_eq_true]
  constructor
  · cases t with
    | nil => exact absurd rfl props.1
    | cons a t => rfl
  · rw [List.all_eq_true]
    intro c hc
    have hcls : isClassSrc c = true := by
      have := props.2.1
      rw [List.all_eq_true] at this
      exact this c hc
    exact nameCharUnd_of_src hcls (not_upper_of_mem_lowerStr (props.2.2 c hc))

/-- A name produced by the ai fallback search is a non-empty token over
`[a-z0-9-]` drawn from the lowercased request. -/
theorem ai_search_name_valid {request t : Str}
    (h : firstMatch aiPatterns (lowerStr request) = some t) :
    matchesLowerHyphen t = true := by
  obtain ⟨p, hp, hps⟩ := firstMatch_some h
  have props : t ≠ [] ∧ t.all isClassAi = true ∧ ∀ c ∈ t, c ∈ lowerStr request := by
    simp only [aiPatterns, List.mem_cons, List.mem_singleton, List.not_mem_nil, or_false] at hp
    rcases hp with rfl | rfl | rfl | rfl | rfl | rfl
    · obtain ⟨u, hu, hmu⟩ := searchFrom_some hps
      obtain ⟨h1, h2, h3⟩ := matchKW_some hmu
      exact ⟨h1, h2, fun c hc => hu c (h3 c hc)⟩
    · obtain ⟨u, hu, hmu⟩ := searchFrom_some hps
      obtain ⟨h1, h2, h3⟩ := matchKW_some hmu
      exact ⟨h1, h2, fun c hc => hu c (h3 c hc)⟩
    · obtain ⟨u, hu, hmu⟩ := searchFrom_some hps
      obtain ⟨h1, h2, h3⟩ := matchTokThen_some hmu
      exact ⟨h1, h2, fun c hc => hu c (h3 c hc)⟩
    · obtain ⟨u, hu, hmu⟩ := searchFrom_some hps
      obtain ⟨h1, h2, h3⟩ := matchTokThen_some hmu
      exact ⟨h1, h2, fun c hc => hu c (h3 c hc)⟩
    · obtain ⟨u, hu, hmu⟩ := searchFrom_some hps
      obtain ⟨h1, h2, h3⟩ := matchKW_some hmu
      exact ⟨h1, h2, fun c hc => hu c (h3 c hc)⟩
    · obtain ⟨u, hu, hmu⟩ := searchFrom_some hps
      obtain ⟨h1, h2, h3⟩ := matchKW_some hmu
      exact ⟨h1, h2, fun c hc => hu c (h3 c hc)⟩
  unfold matchesLowerHyphen
  rw [Bool.and_eq_true]
  constructor
  · cases t with
    | nil => exact absurd rfl props.1
    | cons a t => rfl
  · rw [List.all_eq_true]
    intro c hc
    have hcls : isClassAi c = true := by
      have := props.2.1
      rw [List.all_eq_true] at this
      exact this c hc
    exact nameChar_of_ai hcls (not_upper_of_mem_lowerStr (props.2.2 c hc))

theorem aiFallbackName_valid (request : Str) : matchesLowerHyphen (aiFallbackName request) = true := by
  unfold aiFallbackName
  cases hf : firstMatch aiPatterns (lowerStr request) with
  | none => decide
  | some t =>
    simp only [Option.getD_some]
    exact ai_search_name_valid hf

theorem mem_of_mem_collapseHyphens : ∀ (s : Str) (c : Char), c ∈ collapseHyphens s → c ∈ s
  | [], c, h => by simp [collapseHyphens] at h
  | [a], c, h => h
  | a :: b :: rest, c, h => by
    by_cases hab : (a == '-' && b == '-') = true
    · rw [collapseHyphens, if_pos hab] at h
      exact List.mem_cons_of_mem _ (mem_of_mem_collapseHyphens (b :: rest) c h)
    · rw [collapseHyphens, if_neg hab] at h
      rcases List.mem_cons.mp h with rfl | h
      · exact List.mem_cons_self _ _
      · exact List.mem_cons_of_mem _ (mem_of_mem_collapseHyphens (b :: rest) c h)

theorem mem_of_mem_stripCharEnds (x : Char) (s : Str) (c : Char)
    (h : c ∈ stripCharEnds x s) : c ∈ s := by
  unfold stripCharEnds at h
  rw [List.mem_reverse] at h
  have h2 := mem_of_mem_dropWhile _ _ _ h
  rw [List.mem_reverse] at h2
  exact mem_of_mem_dropWhile _ _ _ h2

theorem collapseHyphens_ne_nil : ∀ s : Str, s ≠ [] → collapseHyphens s ≠ []
  | [], h, _ => h rfl
  | [a], _, h2 => by simp [collapseHyphens] at h2
  | a :: b :: rest, _, h2 => by
    by_cases hab : (a == '-' && b == '-') = true
    · rw [collapseHyphens, if_pos hab] at h2
      exact collapseHyphens_ne_nil (b :: rest) (by simp) h2
    · rw [collapseHyphens, if_neg hab] at h2
      exact List.cons_ne_nil _ _ h2

/-- `aiExtractName` always yields a name matching `^[a-z0-9-]+$`, on the LLM
path (thanks to the sanitizing substitutions) and on the fallback path alike. -/
theorem aiExtractName_valid (llm : LlmResult) (request : Str) :
    matchesLowerHyphen (aiExtractName llm request) = true := by
  cases llm with
  | err => exact aiFallbackName_valid request
  | ok content =>
    simp only [aiExtractName]
    by_cases he : (stripCharEnds '-'
        (collapseHyphens ((lowerStr (stripWsEnds content)).filter pySanitizeClass))).isEmpty = true
    · rw [if_pos he]
      exact aiFallbackName_valid request
    · rw [if_neg he]
      unfold matchesLowerHyphen
      rw [Bool.and_eq_true]
      constructor
      · simpa using he
      · rw [List.all_eq_true]
        intro c hc
        have h1 : c ∈ collapseHyphens ((lowerStr (stripWsEnds content)).filter pySanitizeClass) :=
          mem_of_mem_stripCharEnds _ _ _ hc
        have h2 : c ∈ (lowerStr (stripWsEnds content)).filter pySanitizeClass :=
          mem_of_mem_collapseHyphens _ _ h1
        have h3 : pySanitizeClass c = true := (List.mem_filter.mp h2).2
        unfold pySanitizeClass at h3
        exact h3

theorem firstMatch_eq_none :
    ∀ {ps : List (Str → Option Str)} {s : Str}, (∀ p ∈ ps, p s = none) → firstMatch ps s = none
  | [], _, _ => rfl
  | p :: ps, s, h => by
    simp only [firstMatch, h p (List.mem_cons_self _ _)]
    exact firstMatch_eq_none (fun q hq => h q (List.mem_cons_of_mem _ hq))

theorem lit_called_split : "called ".data = "called".data ++ [' '] := by decide

theorem lit_named_split : "named ".data = "named".data ++ [' '] := by decide

theorem take_called : ("called".data).take (("called".data).length - 1) = "calle".data := by decide

theorem take_named : ("named".data).take (("named".data).length - 1) = "name".data := by decide

theorem notSpace_of_classAi (c : Char) (h : isClassAi c = true) : isSpaceCh c = false :=
  notSpace_of_classSrc c (classSrc_of_classAi c h)

theorem notQuote_of_classAi (c : Char) (h : isClassAi c = true) : isQuoteCh c = false :=
  notQuote_of_classSrc c (classSrc_of_classAi c h)

/-- C4: the fallback extractors apply their ordered pattern lists with first
match winning.  Conjuncts: (1) a "called X" seam in the lowercased request
(with no earlier completable `called` literal) makes the src fallback return
`X`; (2) likewise for "named X" when the `called` pattern has no match
anywhere; (3) when no pattern in the src list matches, the name is the fixed
default `"new-app"`; (4) a "called X" seam makes the ai fallback return `X`;
(5) when no pattern in the ai list matches, the name is the fixed default
`"my-app"`. -/
theorem C4_fallback_pattern_order (request : Str) :
    (∀ pre X rest : Str,
      lowerStr request = pre ++ "called ".data ++ X ++ rest →
      X ≠ [] → X.all isClassSrc = true → headNot isClassSrc rest = true →
      isSubstr "called".data (pre ++ "calle".data) = false →
      (fallbackExtraction request).name = X)
    ∧ (∀ pre X rest : Str,
      searchFrom (matchKW "called".data true isClassSrc) (lowerStr request) = none →
      lowerStr request = pre ++ "named ".data ++ X ++ rest →
      X ≠ [] → X.all isClassSrc = true → headNot isClassSrc rest = true →
      isSubstr "named".data (pre ++ "name".data) = false →
      (fallbackExtraction request).name = X)
    ∧ ((∀ p ∈ namePatterns, p (lowerStr request) = none) →
      (fallbackExtraction request).name = "new-app".data)
    ∧ (∀ pre X rest : Str,
      lowerStr request = pre ++ "called ".data ++ X ++ rest →
      X ≠ [] → X.all isClassAi = true → headNot isClassAi rest = true →
      isSubstr "called".data (pre ++ "calle".data) = false →
      aiFallbackName request = X)
    ∧ ((∀ p ∈ aiPatterns, p (lowerStr request) = none) →
      aiFallbackName request = "my-app".data) := by
  refine ⟨?_, ?_, ?_, ?_, ?_⟩
  · intro pre X rest hdec hX hcls hrest hpre
    have hform : lowerStr request = pre ++ ("called".data ++ ' ' :: (X ++ rest)) := by
      rw [hdec, lit_called_split]
      simp [List.append_assoc]
    have hpre2 : isSubstr "called".data
        (pre ++ ("called".data).take (("called".data).length - 1)) = false := by
      rw [take_called]
      exact hpre
    have hsearch : searchFrom (matchKW "called".data true isClassSrc) (lowerStr request)
        = some X := by
      rw [hform]
      exact searchKW_found "called".data true isClassSrc pre X rest (by decide) hX hcls hrest
        notSpace_of_classSrc notQuote_of_classSrc hpre2
    show (firstMatch namePatterns (lowerStr request)).getD "new-app".data = X
    simp [namePatterns, firstMatch, hsearch]
  · intro pre X rest h0 hdec hX hcls hrest hpre
    have hform : lowerStr request = pre ++ ("named".data ++ ' ' :: (X ++ rest)) := by
      rw [hdec, lit_named_split]
      simp [List.append_assoc]
    have hpre2 : isSubstr "named".data
        (pre ++ ("named".data).take (("named".data).length - 1)) = false := by
      rw [take_named]
      exact hpre
    have hsearch : searchFrom (matchKW "named".data true isClassSrc) (lowerStr request)
        = some X := by
      rw [hform]
      exact searchKW_found "named".data true isClassSrc pre X rest (by decide) hX hcls hrest
        notSpace_of_classSrc notQuote_of_classSrc hpre2
    show (firstMatch namePatterns (lowerStr request)).getD "new-app".data = X
    simp [namePatterns, firstMatch, h0, hsearch]
  · intro h
    show (firstMatch namePatterns (lowerStr request)).getD "new-app".data = "new-app".data
    rw [firstMatch_eq_none h]
    rfl
  · intro pre X rest hdec hX hcls hrest hpre
    have hform : lowerStr request = pre ++ ("called".data ++ ' ' :: (X ++ rest)) := by
      rw [hdec, lit_called_split]
      simp [List.append_assoc]
    have hpre2 : isSubstr "called".data
        (pre ++ ("called".data).take (("called".data).length - 1)) = false := by
      rw [take_called]
      exact hpre
    have hsearch : searchFrom (matchKW "called".data false isClassAi) (lowerStr request)
        = some X := by
      rw [hform]
      exact searchKW_found "called".data false isClassAi pre X rest (by decide) hX hcls hrest
        notSpace_of_classAi notQuote_of_classAi hpre2
    show (firstMatch aiPatterns (lowerStr request)).getD "my-app".data = X
    simp [aiPatterns, firstMatch, hsearch]
  · intro h
    show (firstMatch aiPatterns (lowerStr request)).getD "my-app".data = "my-app".data
    rw [firstMatch_eq_none h]
    rfl

/-- C4 witness: concrete instances of all five conjuncts. -/
theorem C4_fallback_pattern_order_witness :
    (fallbackExtraction "deploy the service x called shop-api now".data).name = "shop-api".data
    ∧ (fallbackExtraction "a thing named cart9 here".data).name = "cart9".data
    ∧ (fallbackExtraction "do the work".data).name = "new-app".data
    ∧ aiFallbackName "it must be called order-svc today".data = "order-svc".data
    ∧ aiFallbackName "hello there".data = "my-app".data := by
  refine ⟨?_, ?_, ?_, ?_, ?_⟩
  · exact (C4_fallback_pattern_order _).1 "deploy the service x ".data "shop-api".data
      " now".data (by decide) (by decide) (by decide) (by decide) (by decide)
  · exact (C4_fallback_pattern_order _).2.1 "a thing ".data "cart9".data " here".data
      (by decide) (by decide) (by decide) (by decide) (by decide) (by decide)
  · exact (C4_fallback_pattern_order _).2.2.1 (by decide)
  · exact (C4_fallback_pattern_order _).2.2.2.1 "it must be ".data "order-svc".data
      " today".data (by decide) (by decide) (by decide) (by decide) (by decide)
  · exact (C4_fallback_pattern_order _).2.2.2.2 (by decide)

/-- C5 counterexample: for the reply `"{}"` — valid JSON with all fields
missing — the src extractor does NOT fall through to the regex fallback (which
would extract `"shop"`); it fills fixed defaults on the LLM path instead. -/
theorem C5_missing_fields_counterexample :
    extractAppInfo (LlmResult.ok "\x7b\x7d".data) "service called shop".data
      ≠ fallbackExtraction "service called shop".data := by decide

/-- C5 (amended): the extractor is total and falls through to the regex
fallback on a network error, on malformed JSON, and on a JSON reply that is
not an object; but missing fields in a parsed JSON object are filled with
fixed defaults in place, without invoking the fallback. -/
theorem C5_extract_error_fallback :
    (∀ request : Str, extractAppInfo LlmResult.err request = fallbackExtraction request)
    ∧ (∀ request response : Str, parseJson (stripWsEnds response) = none →
        extractAppInfo (LlmResult.ok response) request = fallbackExtraction request)
    ∧ (∀ (request response : Str) (v : Json), parseJson (stripWsEnds response) = some v →
        (∀ fields, v ≠ Json.obj fields) →
        extractAppInfo (LlmResult.ok response) request = fallbackExtraction request)
    ∧ (∀ (request response : Str) (fields : List (Str × Json)),
        parseJson (stripWsEnds response) = some (Json.obj fields) →
        jGet fields "name".data = none →
        (extractAppInfo (LlmResult.ok response) request).name = "new-app".data) := by
  refine ⟨fun request => rfl, ?_, ?_, ?_⟩
  · intro request response h
    simp [extractAppInfo, h]
  · intro request response v h hv
    cases v with
    | obj fields => exact absurd rfl (hv fields)
    | null => simp [extractAppInfo, h]
    | bool b => simp [extractAppInfo, h]
    | num n => simp [extractAppInfo, h]
    | str s => simp [extractAppInfo, h]
    | arr xs => simp [extractAppInfo, h]
  · intro request response fields h hget
    simp [extractAppInfo, h, jsonFieldOr, hget]

/-- C5 witness: concrete runs of each conjunct of the amended claim. -/
theorem C5_extract_error_fallback_witness :
    extractAppInfo LlmResult.err "make an app".data = fallbackExtraction "make an app".data
    ∧ extractAppInfo (LlmResult.ok "oops".data) "x named y".data
        = fallbackExtraction "x named y".data
    ∧ extractAppInfo (LlmResult.ok "[1]".data) "deploy z".data
        = fallbackExtraction "deploy z".data
    ∧ (extractAppInfo (LlmResult.ok " \x7b \x7d ".data) "w".data).name = "new-app".data := by
  refine ⟨?_, ?_, ?_, ?_⟩
  · exact C5_extract_error_fallback.1 _
  · exact C5_extract_error_fallback.2.1 _ _ rfl
  · exact C5_extract_error_fallback.2.2.1 _ _ (Json.arr [Json.num 1]) rfl
      (fun fields hf => Json.noConfusion hf)
  · exact C5_extract_error_fallback.2.2.2 _ _ [] rfl rfl

/-- C6 counterexample: the src fallback happily returns `"my_app"` for
`"service called my_app"` — the capture class `[a-zA-Z0-9\-_]` admits
underscores, so the produced name violates `^[a-z0-9-]+$`. -/
theorem C6_name_charset_counterexample :
    (extractAppInfo LlmResult.err "service called my_app".data).name = "my_app".data
    ∧ matchesLowerHyphen ((extractAppInfo LlmResult.err "service called my_app".data).name)
        = false := by
  constructor
  · decide
  · decide

/-- C6 (amended): the name produced by the src fallback extractor always
matches `^[a-z0-9_-]+$` (underscore additionally allowed — `^[a-z0-9-]+$`
itself can fail), while the ai variant's extractor returns a name matching
`^[a-z0-9-]+$` on both of its paths. -/
theorem C6_name_charset :
    (∀ request : Str, matchesLowerHyphenUnd (fallbackExtraction request).name = true)
    ∧ (∀ (llm : LlmResult) (request : Str),
        matchesLowerHyphen (aiExtractName llm request) = true) := by
  constructor
  · intro request
    show matchesLowerHyphenUnd
      ((firstMatch namePatterns (lowerStr request)).getD "new-app".data) = true
    cases hf : firstMatch namePatterns (lowerStr request) with
    | none => decide
    | some t =>
      simp only [Option.getD_some]
      exact fallback_search_name_valid hf
  · exact aiExtractName_valid

theorem ghFallbackUrl_contains (u name core : Str) :
    isSubstr (name ++ core) (ghFallbackUrl u name (core ++ ".git".data)) = true := by
  unfold ghFallbackUrl
  have heq : "https://github.com/".data ++ u ++ "/".data ++ name ++ (core ++ ".git".data)
      = ("https://github.com/".data ++ u ++ "/".data) ++ ((name ++ core) ++ ".git".data) := by
    simp [List.append_assoc]
  rw [heq]
  exact isSubstr_append_of_prefixOf _ _ _ (prefixOf_append_self _ _)

theorem sfx_source_split : "-source.git".data = "-source".data ++ ".git".data := by decide

theorem sfx_gitops_split : "-gitops.git".data = "-gitops".data ++ ".git".data := by decide

/-- On the lookup path, the existing-repository URLs contain the expected
suffixed names whenever the hosting API reports clone URLs ending in the
requested repository name; the constructed fallback URLs contain them
unconditionally. -/
theorem getExisting_urls (cfg : Config) (env : GithubEnv) (name : Str)
    (hg : ∀ n r, env.get n = GhResult.ok r → ∃ p, r.clone_url = p ++ (n ++ ".git".data)) :
    isSubstr (name ++ "-source".data)
        (getExistingRepositories cfg env name).source_repo_url = true
    ∧ isSubstr (name ++ "-gitops".data)
        (getExistingRepositories cfg env name).gitops_repo_url = true := by
  unfold getExistingRepositories
  cases hs : env.get (name ++ "-source".data) with
  | ok s =>
    cases ho : env.get (name ++ "-gitops".data) with
    | ok g =>
      obtain ⟨p1, hp1⟩ := hg _ _ hs
      obtain ⟨p2, hp2⟩ := hg _ _ ho
      dsimp only
      constructor
      · rw [hp1]
        exact isSubstr_append_of_prefixOf _ _ _ (prefixOf_append_self _ _)
      · rw [hp2]
        exact isSubstr_append_of_prefixOf _ _ _ (prefixOf_append_self _ _)
    | err e =>
      dsimp only
      constructor
      · have h := ghFallbackUrl_contains cfg.github_username name "-source".data
        rw [← sfx_source_split] at h
        exact h
      · have h := ghFallbackUrl_contains cfg.github_username name "-gitops".data
        rw [← sfx_gitops_split] at h
        exact h
  | err e =>
    dsimp only
    constructor
    · have h := ghFallbackUrl_contains cfg.github_username name "-source".data
      rw [← sfx_source_split] at h
      exact h
    · have h := ghFallbackUrl_contains cfg.github_username name "-gitops".data
      rw [← sfx_gitops_split] at h
      exact h

/-- C3: for every `AppInfo`, on every path of the provisioner — successful
creation, lookup of already-existing repositories, and the deterministic pure
fallback — the produced `RepositoryInfo` has a `source_repo_url` containing
`<name>-source` and a `gitops_repo_url` containing `<name>-gitops`, provided
the hosting API (when it answers at all) returns clone URLs ending in the
requested repository name plus `.git` (GitHub's documented behaviour). -/
theorem C3_repo_url_suffixes (cfg : Config) (env : GithubEnv) (app : AppInfo)
    (hc : ∀ n d r, env.create n d = GhResult.ok r → ∃ p, r.clone_url = p ++ (n ++ ".git".data))
    (hg : ∀ n r, env.get n = GhResult.ok r → ∃ p, r.clone_url = p ++ (n ++ ".git".data)) :
    repoUrlsOk app.name (createGithubRepo cfg env app) := by
  unfold createGithubRepo
  cases hcs : env.create (app.name ++ "-source".data)
      ("Source code for ".data ++ app.description) with
  | err e =>
    dsimp only
    by_cases h422 : e.status = 422
    · rw [if_pos h422]
      exact getExisting_urls cfg env app.name hg
    · rw [if_neg h422]
      trivial
  | ok s =>
    dsimp only
    cases hcg : env.create (app.name ++ "-gitops".data)
        ("GitOps configuration for ".data ++ app.description) with
    | err e =>
      dsimp only
      by_cases h422 : e.status = 422
      · rw [if_pos h422]
        exact getExisting_urls cfg env app.name hg
      · rw [if_neg h422]
        trivial
    | ok g =>
      dsimp only
      obtain ⟨p1, hp1⟩ := hc _ _ _ hcs
      obtain ⟨p2, hp2⟩ := hc _ _ _ hcg
      constructor
      · dsimp only
        rw [hp1]
        exact isSubstr_append_of_prefixOf _ _ _ (prefixOf_append_self _ _)
      · dsimp only
        rw [hp2]
        exact isSubstr_append_of_prefixOf _ _ _ (prefixOf_append_self _ _)

/-- C3 witness: the invariant concretely, on a successful creation run. -/
theorem C3_repo_url_suffixes_witness :
    repoUrlsOk appW.name (createGithubRepo cfgW envGhW appW) :=
  C3_repo_url_suffixes cfgW envGhW appW
    (fun n d r h => by
      injection h with h2
      subst h2
      exact ⟨[], rfl⟩)
    (fun n r h => by
      injection h with h2
      subst h2
      exact ⟨[], rfl⟩)

set_option maxRecDepth 40000 in
theorem mChunk6_dest_split : mChunk6
    = "\n    targetRevision: HEAD\n    path: .\n".data ++ destBlock
      ++ "  syncPolicy:\n    automated:\n      prune: true\n      selfHeal: true\n    syncOptions:\n    - CreateNamespace=true\n    - PrunePropagationPolicy=foreground\n    - PruneLast=true\n    retry:\n      limit: 5\n      backoff:\n        duration: 5s\n        factor: 2\n        maxDuration: 3m\n  ignoreDifferences:\n  - group: apps\n    kind: Deployment\n    jsonPointers:\n    - /spec/replicas".data := by
  decide

set_option maxRecDepth 40000 in
theorem aChunk3_dest_split : aChunk3
    = "\n    targetRevision: HEAD\n    path: .\n".data ++ destBlock
      ++ "  syncPolicy:\n    automated:\n      prune: true\n      selfHeal: true\n".data := by
  decide

set_option maxRecDepth 40000 in
/-- C10: the destination fields of the generated manifests are fixed
constants (`destination.server: https://kubernetes.default.svc`,
`destination.namespace: default`) independent of the application name, the
URL and the configuration; the configured ArgoCD namespace affects only the
metadata namespace slot (the manifest factors around it, with both factors
independent of that namespace).  Both generator variants are covered. -/
theorem C10_destination_fixed :
    (∀ (cfg : Config) (app : AppInfo) (url : Str),
      isSubstr destBlock (genArgoManifest cfg app url) = true)
    ∧ (∀ (cfg : Config) (app : AppInfo) (url : Str),
      genArgoManifest cfg app url
        = manifestMetaPre app.name ++ cfg.argocd_namespace
            ++ manifestMetaRest cfg.argocd_project app.name url)
    ∧ (∀ name url : Str, isSubstr destBlock (genArgoManifestAi name url) = true) := by
  refine ⟨?_, ?_, ?_⟩
  · intro cfg app url
    have heq : genArgoManifest cfg app url
        = (mChunk1 ++ app.name ++ mChunk2 ++ cfg.argocd_namespace ++ mChunk3 ++ app.name
            ++ mChunk4 ++ cfg.argocd_project ++ mChunk5 ++ url
            ++ "\n    targetRevision: HEAD\n    path: .\n".data)
          ++ destBlock
          ++ "  syncPolicy:\n    automated:\n      prune: true\n      selfHeal: true\n    syncOptions:\n    - CreateNamespace=true\n    - PrunePropagationPolicy=foreground\n    - PruneLast=true\n    retry:\n      limit: 5\n      backoff:\n        duration: 5s\n        factor: 2\n        maxDuration: 3m\n  ignoreDifferences:\n  - group: apps\n    kind: Deployment\n    jsonPointers:\n    - /spec/replicas".data := by
      unfold genArgoManifest
      rw [mChunk6_dest_split]
      simp [List.append_assoc]
    rw [heq]
    exact isSubstr_of_decomp _ _ _
  · intro cfg app url
    simp [genArgoManifest, manifestMetaPre, manifestMetaRest, List.append_assoc]
  · intro name url
    have heq : genArgoManifestAi name url
        = (aChunk1 ++ name ++ aChunk2 ++ url ++ "\n    targetRevision: HEAD\n    path: .\n".data)
          ++ destBlock
          ++ "  syncPolicy:\n    automated:\n      prune: true\n      selfHeal: true\n".data := by
      unfold genArgoManifestAi
      rw [aChunk3_dest_split]
      simp [List.append_assoc]
    rw [heq]
    exact isSubstr_of_decomp _ _ _

theorem mChunk1_name : mChunk1
    = "apiVersion: argoproj.io/v1alpha1\nkind: Application\nmetadata:\n  ".data
      ++ "name: ".data := by decide

theorem mChunk2_nl : mChunk2 = "\n".data ++ "  namespace: ".data := by decide

theorem mChunk3_app : mChunk3 = "\n  labels:\n    ".data ++ "app: ".data := by decide

theorem mChunk4_nl : mChunk4
    = "\n".data ++ "    created-by: ai-onboarding-agent\nspec:\n  project: ".data := by decide

theorem mChunk5_repo : mChunk5 = "\n  source:\n    ".data ++ "repoURL: ".data := by decide

set_option maxRecDepth 40000 in
theorem mChunk6_nl : mChunk6
    = "\n".data ++ "    targetRevision: HEAD\n    path: .\n  destination:\n    server: https://kubernetes.default.svc\n    namespace: default\n  syncPolicy:\n    automated:\n      prune: true\n      selfHeal: true\n    syncOptions:\n    - CreateNamespace=true\n    - PrunePropagationPolicy=foreground\n    - PruneLast=true\n    retry:\n      limit: 5\n      backoff:\n        duration: 5s\n        factor: 2\n        maxDuration: 3m\n  ignoreDifferences:\n  - group: apps\n    kind: Deployment\n    jsonPointers:\n    - /spec/replicas".data := by
  decide

theorem aChunk1_name : aChunk1
    = "apiVersion: argoproj.io/v1alpha1\nkind: Application\nmetadata:\n  ".data
      ++ "name: ".data := by decide

theorem aChunk2_nl : aChunk2
    = "\n".data
      ++ "  namespace: argocd\nspec:\n  project: default\n  source:\n    repoURL: ".data := by
  decide

theorem aChunk2_repo : aChunk2
    = "\n  namespace: argocd\nspec:\n  project: default\n  source:\n    ".data
      ++ "repoURL: ".data := by decide

set_option maxRecDepth 40000 in
theorem aChunk3_nl : aChunk3
    = "\n".data ++ "    targetRevision: HEAD\n    path: .\n  destination:\n    server: https://kubernetes.default.svc\n    namespace: default\n  syncPolicy:\n    automated:\n      prune: true\n      selfHeal: true\n".data := by
  decide

set_option maxRecDepth 40000 in
/-- C9 counterexample: the ai variant's generated Application manifest for the
name `inventory-api` carries no `app:` label at all — the string
`app: inventory-api` does not occur in it, so the name is NOT embedded as an
`app` label value by that generator. -/
theorem C9_label_counterexample :
    isSubstr ("app: ".data ++ "inventory-api".data)
      (genArgoManifestAi "inventory-api".data
        "https://github.com/test-user/inventory-api-gitops.git".data) = false := by
  decide

set_option maxRecDepth 40000 in
/-- C9 (amended): both generators embed the exact `gitops_repo_url` as
`spec.source.repoURL` and the exact app name as `metadata.name`; the src
variant additionally embeds the name as the `app` label value, while the ai
variant's manifest has no labels section. -/
theorem C9_manifest_embeds :
    (∀ (cfg : Config) (app : AppInfo) (url : Str),
      isSubstr ("name: ".data ++ app.name ++ "\n".data) (genArgoManifest cfg app url) = true
      ∧ isSubstr ("app: ".data ++ app.name ++ "\n".data) (genArgoManifest cfg app url) = true
      ∧ isSubstr ("repoURL: ".data ++ url ++ "\n".data) (genArgoManifest cfg app url) = true)
    ∧ (∀ name url : Str,
      isSubstr ("name: ".data ++ name ++ "\n".data) (genArgoManifestAi name url) = true
      ∧ isSubstr ("repoURL: ".data ++ url ++ "\n".data) (genArgoManifestAi name url) = true) := by
  constructor
  · intro cfg app url
    refine ⟨?_, ?_, ?_⟩
    · have heq : genArgoManifest cfg app url
          = "apiVersion: argoproj.io/v1alpha1\nkind: Application\nmetadata:\n  ".data
            ++ ("name: ".data ++ app.name ++ "\n".data)
            ++ ("  namespace: ".data ++ cfg.argocd_namespace ++ mChunk3 ++ app.name ++ mChunk4
                ++ cfg.argocd_project ++ mChunk5 ++ url ++ mChunk6) := by
        unfold genArgoManifest
        rw [mChunk1_name, mChunk2_nl]
        simp [List.append_assoc]
      rw [heq]
      exact isSubstr_of_decomp _ _ _
    · have heq : genArgoManifest cfg app url
          = (mChunk1 ++ app.name ++ mChunk2 ++ cfg.argocd_namespace ++ "\n  labels:\n    ".data)
            ++ ("app: ".data ++ app.name ++ "\n".data)
            ++ ("    created-by: ai-onboarding-agent\nspec:\n  project: ".data
                ++ cfg.argocd_project ++ mChunk5 ++ url ++ mChunk6) := by
        unfold genArgoManifest
        rw [mChunk3_app, mChunk4_nl]
        simp [List.append_assoc]
      rw [heq]
      exact isSubstr_of_decomp _ _ _
    · have heq : genArgoManifest cfg app url
          = (mChunk1 ++ app.name ++ mChunk2 ++ cfg.argocd_namespace ++ mChunk3 ++ app.name
              ++ mChunk4 ++ cfg.argocd_project ++ "\n  source:\n    ".data)
            ++ ("repoURL: ".data ++ url ++ "\n".data)
            ++ "    targetRevision: HEAD\n    path: .\n  destination:\n    server: https://kubernetes.default.svc\n    namespace: default\n  syncPolicy:\n    automated:\n      prune: true\n      selfHeal: true\n    syncOptions:\n    - CreateNamespace=true\n    - PrunePropagationPolicy=foreground\n    - PruneLast=true\n    retry:\n      limit: 5\n      backoff:\n        duration: 5s\n        factor: 2\n        maxDuration: 3m\n  ignoreDifferences:\n  - group: apps\n    kind: Deployment\n    jsonPointers:\n    - /spec/replicas".data := by
        unfold genArgoManifest
        rw [mChunk5_repo, mChunk6_nl]
        simp [List.append_assoc]
      rw [heq]
      exact isSubstr_of_decomp _ _ _
  · intro name url
    constructor
    · have heq : genArgoManifestAi name url
          = "apiVersion: argoproj.io/v1alpha1\nkind: Application\nmetadata:\n  ".data
            ++ ("name: ".data ++ name ++ "\n".data)
            ++ ("  namespace: argocd\nspec:\n  project: default\n  source:\n    repoURL: ".data
                ++ url ++ aChunk3) := by
        unfold genArgoManifestAi
        rw [aChunk1_name, aChunk2_nl]
        simp [List.append_assoc]
      rw [heq]
      exact isSubstr_of_decomp _ _ _
    · have heq : genArgoManifestAi name url
          = (aChunk1 ++ name
              ++ "\n  namespace: argocd\nspec:\n  project: default\n  source:\n    ".data)
            ++ ("repoURL: ".data ++ url ++ "\n".data)
            ++ "    targetRevision: HEAD\n    path: .\n  destination:\n    server: https://kubernetes.default.svc\n    namespace: default\n  syncPolicy:\n    automated:\n      prune: true\n      selfHeal: true\n".data := by
        unfold genArgoManifestAi
        rw [aChunk2_repo, aChunk3_nl]
        simp [List.append_assoc]
      rw [heq]
      exact isSubstr_of_decomp _ _ _

/-- C7 counterexample: in the ai variant a render failure of a single
template file is NOT contained — the populate call propagates the exception
(the stage fails) and the file is not copied raw (no file is written). -/
theorem C7_render_failure_counterexample :
    (populateRepoFromStackAi aiPopEnvRenderFail "https://github.com/u/x-source.git".data
        "/tpl".data "x".data "d".data).res
      = Except.error { msg := "TemplateSyntaxError".data }
    ∧ (populateRepoFromStackAi aiPopEnvRenderFail "https://github.com/u/x-source.git".data
        "/tpl".data "x".data "d".data).files = [] := by
  constructor
  · decide
  · decide

/-- C7 (amended): in the src variant a render failure of one
template-classified file is localized: that file is copied raw (byte-identical
content) into the destination tree, and render outcomes never affect the
stage's returned boolean, so the stage can still report success; in the ai
variant (see the counterexample) a render failure aborts the whole stage. -/
theorem C7_render_failure_localized :
    (∀ (cfg : Config) (env : PopEnv) (repo_url template_path : Str) (app : AppInfo)
        (p c : Str),
      (p, c) ∈ env.tree → shouldProcessAsTemplate p = true →
      env.render (renderVars cfg app) c = Except.error () →
      env.cloneOk = Except.ok () →
      (p, c) ∈ (populateRepoFromStack cfg env repo_url template_path app).files)
    ∧ (∀ (cfg : Config) (env : PopEnv) (repo_url template_path : Str) (app : AppInfo)
        (render2 : RenderVars → Str → Except Unit Str),
      (populateRepoFromStack cfg { env with render := render2 } repo_url template_path app).ok
        = (populateRepoFromStack cfg env repo_url template_path app).ok) := by
  constructor
  · intro cfg env repo_url template_path app p c hmem hcls hrend hclone
    have helem : (if shouldProcessAsTemplate p then processTemplateFile env.render cfg app c
        else c) = c := by
      rw [if_pos hcls]
      unfold processTemplateFile
      rw [hrend]
    have h2 := List.mem_map_of_mem
      (fun f : Str × Str =>
        (f.1, if shouldProcessAsTemplate f.1 then processTemplateFile env.render cfg app f.2
          else f.2)) hmem
    dsimp only at h2
    rw [helem] at h2
    unfold populateRepoFromStack
    rw [hclone]
    dsimp only
    cases env.commitPush with
    | error e => exact h2
    | ok u => exact h2
  · intro cfg env repo_url template_path app render2
    unfold populateRepoFromStack
    dsimp only
    cases env.cloneOk with
    | error e => rfl
    | ok u =>
      cases env.commitPush with
      | error e => rfl
      | ok u2 => rfl

/-- C7 witness: the failing template file is raw-copied in a concrete run. -/
theorem C7_render_failure_localized_witness :
    ("README.md".data, "hello \x7b\x7b".data)
      ∈ (populateRepoFromStack cfgW popEnvW "url".data "/tpl".data appW).files :=
  C7_render_failure_localized.1 cfgW popEnvW "url".data "/tpl".data appW
    "README.md".data "hello \x7b\x7b".data (by decide) (by decide) rfl rfl

/-- C8 counterexample: after a successful ai-variant populate the clone
directory is still on disk, and after the ai registrar runs the manifest file
is still on disk — scratch state persists after the calls return. -/
theorem C8_scratch_persists_counterexample :
    (populateRepoFromStackAi aiPopEnvOkW "https://github.com/u/shop-source.git".data
        "/tpl".data "shop".data "d".data).leftover ≠ []
    ∧ (createArgocdApplicationAi aiK8sEnvW "shop".data "u".data).2 ≠ [] := by
  constructor
  · decide
  · decide

/-- C8 (amended): in the src variant, populate's unique scratch directory is
removed on every exit path (the `with` block), and the registrar's manifest
temp file is unlinked in a `finally` on success and failure alike — no scratch
state persists; the ai variant (see the counterexample) leaves its fixed
`/tmp` clone directory and its manifest file behind. -/
theorem C8_scratch_cleanup :
    (∀ (cfg : Config) (env : PopEnv) (repo_url template_path : Str) (app : AppInfo),
      (populateRepoFromStack cfg env repo_url template_path app).leftover = [])
    ∧ (∀ (cfg : Config) (env : K8sEnv) (app : AppInfo) (url : Str),
      (createArgocdApplication cfg env app url).leftover = []) := by
  constructor
  · intro cfg env repo_url template_path app
    unfold populateRepoFromStack
    dsimp only
    simp
  · intro cfg env app url
    unfold createArgocdApplication
    cases env.kubeLoad with
    | error e => rfl
    | ok u =>
      dsimp only
      unfold applyKubernetesManifest
      dsimp only
      simp

/-- C2 counterexample: with the template root absent the ai populate returns
`False`, but only AFTER `git clone` has run — the clone action is in the
performed-actions trace, contradicting "no clone of the repository is
attempted". -/
theorem C2_clone_before_check_counterexample :
    (populateRepoFromStackAi aiPopEnvNoTpl "https://github.com/u/shop-source.git".data
        "/none".data "shop".data "d".data).res = Except.ok false
    ∧ AiAct.clone ∈ (populateRepoFromStackAi aiPopEnvNoTpl
        "https://github.com/u/shop-source.git".data "/none".data "shop".data "d".data).acts := by
  constructor
  · decide
  · decide

/-- C2 (amended): whenever the clone succeeds and the template root does not
exist, the ai populate returns `False` — but the clone has already been
attempted, because the existence check comes after the clone; the src variant
performs no per-call existence check at all (missing template paths are
rejected at agent construction, and its populate clones before anything
else). -/
theorem C2_template_missing (env : AiPopEnv)
    (repo_url template_path app_name description : Str)
    (hne : env.templateExists = false) (hcl : env.cloneOk = Except.ok ()) :
    (populateRepoFromStackAi env repo_url template_path app_name description).res
        = Except.ok false
    ∧ AiAct.clone ∈ (populateRepoFromStackAi env repo_url template_path app_name
        description).acts := by
  unfold populateRepoFromStackAi
  rw [hcl]
  dsimp only
  rw [if_pos hne]
  exact ⟨rfl, by simp⟩

/-- C2 witness: the amended claim at a concrete environment. -/
theorem C2_template_missing_witness :
    (populateRepoFromStackAi aiPopEnvNoTpl "https://github.com/u/cart-source.git".data
        "/missing".data "cart".data "x".data).res = Except.ok false
    ∧ AiAct.clone ∈ (populateRepoFromStackAi aiPopEnvNoTpl
        "https://github.com/u/cart-source.git".data "/missing".data "cart".data
        "x".data).acts :=
  C2_template_missing aiPopEnvNoTpl "https://github.com/u/cart-source.git".data
    "/missing".data "cart".data "x".data rfl rfl

/-- C1 (amended): on a provisioner error and on either populate failure the
pipeline halts — the trace stops at the failing stage (no later stage is
invoked), `success` is `False`, the stage's descriptive error string is the
`error` field, and the stage outputs already obtained (`AppInfo`, then
`RepositoryInfo`) are preserved in the result record.  A manifest-apply
failure, however, does NOT produce `success = False`: the flow records
`argocd_created = False` and still returns `success = True` with `error`
empty. -/
theorem C1_flow_stage_failures (cfg : Config) (env : FlowEnv) (request : Str) :
    (∀ e : GhError,
      createGithubRepo cfg env.github (extractAppInfo env.llm request) = Except.error e →
      runOnboardingFlow cfg env request
        = ({ success := false, app_info := some (extractAppInfo env.llm request)
             repositories := none, argocd_created := false, error := some e.msg
             timestamp := env.now },
           [Stage.extract, Stage.createRepos]))
    ∧ (∀ repo_info : RepositoryInfo,
      createGithubRepo cfg env.github (extractAppInfo env.llm request) = Except.ok repo_info →
      (populateRepoFromStack cfg env.popSourceEnv repo_info.source_repo_url
          cfg.nodejs_template_path (extractAppInfo env.llm request)).ok = false →
      runOnboardingFlow cfg env request
        = ({ success := false, app_info := some (extractAppInfo env.llm request)
             repositories := some repo_info, argocd_created := false
             error := some "Failed to populate source repository".data
             timestamp := env.now },
           [Stage.extract, Stage.createRepos, Stage.popSource]))
    ∧ (∀ repo_info : RepositoryInfo,
      createGithubRepo cfg env.github (extractAppInfo env.llm request) = Except.ok repo_info →
      (populateRepoFromStack cfg env.popSourceEnv repo_info.source_repo_url
          cfg.nodejs_template_path (extractAppInfo env.llm request)).ok = true →
      (populateRepoFromStack cfg env.popGitopsEnv repo_info.gitops_repo_url
          cfg.gitops_template_path (extractAppInfo env.llm request)).ok = false →
      runOnboardingFlow cfg env request
        = ({ success := false, app_info := some (extractAppInfo env.llm request)
             repositories := some repo_info, argocd_created := false
             error := some "Failed to populate GitOps repository".data
             timestamp := env.now },
           [Stage.extract, Stage.createRepos, Stage.popSource, Stage.popGitops]))
    ∧ (∀ repo_info : RepositoryInfo,
      createGithubRepo cfg env.github (extractAppInfo env.llm request) = Except.ok repo_info →
      (populateRepoFromStack cfg env.popSourceEnv repo_info.source_repo_url
          cfg.nodejs_template_path (extractAppInfo env.llm request)).ok = true →
      (populateRepoFromStack cfg env.popGitopsEnv repo_info.gitops_repo_url
          cfg.gitops_template_path (extractAppInfo env.llm request)).ok = true →
      (createArgocdApplication cfg env.k8s (extractAppInfo env.llm request)
          repo_info.gitops_repo_url).ok = false →
      runOnboardingFlow cfg env request
        = ({ success := true, app_info := some (extractAppInfo env.llm request)
             repositories := some repo_info, argocd_created := false, error := none
             timestamp := env.now },
           [Stage.extract, Stage.createRepos, Stage.popSource, Stage.popGitops,
            Stage.argocd])) := by
  refine ⟨?_, ?_, ?_, ?_⟩
  · intro e hg
    unfold runOnboardingFlow
    dsimp only
    rw [hg]
  · intro repo_info hg hp1
    unfold runOnboardingFlow
    dsimp only
    rw [hg]
    dsimp only
    rw [if_pos hp1]
  · intro repo_info hg hp1 hp2
    unfold runOnboardingFlow
    dsimp only
    rw [hg]
    dsimp only
    rw [if_neg (by rw [hp1]; exact fun hc => Bool.noConfusion hc), if_pos hp2]
  · intro repo_info hg hp1 hp2 hk
    unfold runOnboardingFlow
    dsimp only
    rw [hg]
    dsimp only
    rw [if_neg (by rw [hp1]; exact fun hc => Bool.noConfusion hc),
      if_neg (by rw [hp2]; exact fun hc => Bool.noConfusion hc)]
    rw [hk]

/-- C1 witness: the halt-on-populate-failure conjunct at a concrete
environment: extraction and provisioning outputs are preserved, later stages
are absent from the trace, and the error string is attached. -/
theorem C1_flow_stage_failures_witness :
    runOnboardingFlow cfgW flowEnvPopFail "make a thing called shop".data
      = ({ success := false
           app_info := some (extractAppInfo LlmResult.err "make a thing called shop".data)
           repositories := some
             { source_repo_url := "shop-source.git".data
               gitops_repo_url := "shop-gitops.git".data
               source_repo_id := "5".data
               gitops_repo_id := "5".data }
           argocd_created := false
           error := some "Failed to populate source repository".data
           timestamp := "2026-10-12T00:00:00".data },
         [Stage.extract, Stage.createRepos, Stage.popSource]) :=
  (C1_flow_stage_failures cfgW flowEnvPopFail "make a thing called shop".data).2.1
    { source_repo_url := "shop-source.git".data
      gitops_repo_url := "shop-gitops.git".data
      source_repo_id := "5".data
      gitops_repo_id := "5".data }
    (by decide) (by decide)

/-- C1 counterexample: every stage before the registrar succeeds and the
manifest-apply step fails, yet the returned result has `success = True` and
no error string — only `argocd_created = False` records the failure. -/
theorem C1_argocd_failure_counterexample :
    (runOnboardingFlow cfgW flowEnvArgoFail "deploy x".data).1.success = true
    ∧ (runOnboardingFlow cfgW flowEnvArgoFail "deploy x".data).1.argocd_created = false
    ∧ (runOnboardingFlow cfgW flowEnvArgoFail "deploy x".data).1.error = none := by
  refine ⟨?_, ?_, ?_⟩
  · decide
  · decide
  · decide
